import Mathlib

/-!
Verification of the modos-api metadata store against its specification.

The Python source is shallowly embedded: zarr attribute maps become
insertion-ordered association lists, the archive (root attributes, the five
fixed containers, element groups, data files and the consolidated snapshot)
becomes an explicit state record, and every lifecycle operation of the
`MODO` facade becomes a pure function returning `Except Err`.
-/

set_option maxHeartbeats 1000000

namespace Modos

/-- JSON-like values stored in a zarr group's flat attribute map:
strings (scalars / categorical codes), ordered lists of strings, or null. -/
inductive AttrValue where
  | str (s : String)
  | list (xs : List String)
  | null
  deriving DecidableEq, Repr

/-- Dict read: value of the first binding of key `k`, as in `d[k]`. -/
def dGet {β : Type} (a : List (String × β)) (k : String) : Option β :=
  match a with
  | [] => none
  | (k2, v) :: rest => if k2 = k then some v else dGet rest k

/-- Dict write `d[k] = v`: replaces the binding in place keeping its
position, or appends a new binding at the end. -/
def dSet {β : Type} (a : List (String × β)) (k : String) (v : β) :
    List (String × β) :=
  match a with
  | [] => [(k, v)]
  | (k2, w) :: rest =>
    if k2 = k then (k2, v) :: rest else (k2, w) :: dSet rest k v

/-- Dict delete `del d[k]`: removes the binding of key `k` (no change when
the key is absent). -/
def dErase {β : Type} (a : List (String × β)) (k : String) :
    List (String × β) :=
  match a with
  | [] => []
  | (k2, w) :: rest => if k2 = k then rest else (k2, w) :: dErase rest k

/-- Membership test `k in d.keys()`. -/
def dHasKey {β : Type} (a : List (String × β)) (k : String) : Bool :=
  (dGet a k).isSome

/-- A zarr group's flat attribute map: insertion-ordered key/value pairs,
mirroring a Python dict (unique keys in all reachable states). -/
abbrev Attrs := List (String × AttrValue)

/-- Dict read on attribute maps. -/
def attrsGet (a : Attrs) (k : String) : Option AttrValue := dGet a k

/-- Dict write on attribute maps. -/
def attrsSet (a : Attrs) (k : String) (v : AttrValue) : Attrs := dSet a k v

/-- Dict delete on attribute maps. -/
def attrsErase (a : Attrs) (k : String) : Attrs := dErase a k

/-- Membership test `k in attrs.keys()`. -/
def attrsHasKey (a : Attrs) (k : String) : Bool := dHasKey a k

/-- Membership test `(k, v) in attrs.items()`. -/
def attrsMemPair (a : Attrs) (k : String) (v : AttrValue) : Bool :=
  match a with
  | [] => false
  | (k2, w) :: rest =>
    if k2 = k ∧ w = v then true else attrsMemPair rest k v

/-- Errors surfaced by the embedded operations, mirroring the Python
exception kinds raised in `modos.api` and `modos.helpers.schema`. -/
inductive Err where
  | keyError (k : String)
  | valueError (msg : String)
  | typeError (msg : String)
  | fileNotFound (p : String)
  deriving DecidableEq, Repr

/-- The schema classes handled by the facade
(`modos_schema.datamodel` class tags). -/
inductive ElemClass where
  | modo
  | sample
  | assay
  | dataEntity
  | referenceGenome
  | referenceSequence
  deriving DecidableEq, Repr

/-- Python class name of a schema class (`__class__.__name__`). -/
def clsName : ElemClass → String
  | .modo => "MODO"
  | .sample => "Sample"
  | .assay => "Assay"
  | .dataEntity => "DataEntity"
  | .referenceGenome => "ReferenceGenome"
  | .referenceSequence => "ReferenceSequence"

/-- Inverse of `clsName`, as used by `class_from_name` for the classes the
facade instantiates. -/
def classFromName (n : String) : Option ElemClass :=
  match n with
  | "MODO" => some .modo
  | "Sample" => some .sample
  | "Assay" => some .assay
  | "DataEntity" => some .dataEntity
  | "ReferenceGenome" => some .referenceGenome
  | "ReferenceSequence" => some .referenceSequence
  | _ => none

/-- Modelled from the spec: the subproperties of `has_part` declared by the
external `modos_schema` (absent from the sources), as enumerated by
`load_schema().slot_children("has_part")`. -/
def haspartSlots : List String :=
  ["has_assay", "has_sample", "has_data", "has_reference", "has_sequence"]

/-- Modelled from the spec: the allowed target class of each has-part slot
(`get_slot_range` over the external `modos_schema`). -/
def haspartRange (h : String) : Option ElemClass :=
  match h with
  | "has_assay" => some .assay
  | "has_sample" => some .sample
  | "has_data" => some .dataEntity
  | "has_reference" => some .referenceGenome
  | "has_sequence" => some .referenceSequence
  | _ => none

/-- Modelled from the spec: schema subclasses of each class
(`load_schema().get_children`); `DataEntity` has data-set subclasses such as
`AlignmentSet` (see the `get_haspart_property` docstring). -/
def subClasses (c : ElemClass) : List String :=
  match c with
  | .dataEntity => ["AlignmentSet", "VariantSet", "MassSpectrometryResults", "ArrayExtract"]
  | _ => []

/-- Modelled from the spec: the slot list (`__match_args__`) of each schema
class in the external `modos_schema`; only the slots the embedded operations
touch are reproduced. -/
def classSlots (c : ElemClass) : List String :=
  match c with
  | .modo =>
    ["id", "creation_date", "last_update_date", "name", "description",
     "has_assay", "source_uri"]
  | .sample => ["id", "name", "description", "cell_type", "taxon_id"]
  | .assay =>
    ["id", "name", "description", "omics_type", "has_sample", "has_data"]
  | .dataEntity =>
    ["id", "name", "description", "data_path", "data_format",
     "data_checksum", "has_reference"]
  | .referenceGenome =>
    ["id", "name", "description", "data_path", "data_checksum",
     "source_uri", "taxon_id", "has_sequence"]
  | .referenceSequence => ["id", "name", "description", "source_uri"]

/-- `get_haspart_property`: the has-part slot (if any) whose allowed targets
(range class and its subclasses) contain `childClass`. -/
def getHaspartProperty (childClass : String) : Option String :=
  haspartSlots.find? (fun h =>
    match haspartRange h with
    | some c => childClass = clsName c ∨ childClass ∈ subClasses c
    | none => false)

/-- `ElementType.from_object` (`.value`): container name of a class; raises
(`none`) for `MODO`. -/
def elementTypeName (c : ElemClass) : Option String :=
  match c with
  | .sample => some "sample"
  | .assay => some "assay"
  | .dataEntity => some "data"
  | .referenceGenome => some "reference"
  | .referenceSequence => some "sequence"
  | .modo => none

/-- `UserElementType.from_object` (`.value`): as `elementTypeName` but the
user-facing enum has no `sequence` member. -/
def userElementTypeName (c : ElemClass) : Option String :=
  match c with
  | .referenceSequence => none
  | _ => elementTypeName c

/-- `ElementType` member values, in declaration order. -/
def elementTypeValues : List String :=
  ["sample", "assay", "data", "reference", "sequence"]

/-- `str.startswith(pre)`, computed structurally on the character lists. -/
def strStartsWith (s pre : String) : Bool :=
  pre.toList.isPrefixOf s.toList

/-- `str.endswith(suf)`, computed structurally on the character lists. -/
def strEndsWith (s suf : String) : Bool :=
  suf.toList.isSuffixOf s.toList

/-- Drop the last `n` characters of a string. -/
def strDropRight (s : String) (n : Nat) : String :=
  String.mk (s.toList.take (s.toList.length - n))

/-- `str.replace(a, b)` for single-character patterns. -/
def charReplace (s : String) (a b : Char) : String :=
  String.mk (s.toList.map (fun c => if c = a then b else c))

/-- `is_full_id`: true if the id starts with one of the five container names
followed by a slash, optionally preceded by a slash. -/
def isFullId (id : String) : Bool :=
  let etypes := elementTypeValues.map (fun t => t ++ "/")
  let extended := etypes ++ etypes.map (fun t => "/" ++ t)
  extended.any (fun t => strStartsWith id t)

/-- `Path(id).name`: the last nonempty slash-separated component, computed
by a structural fold over the characters. -/
def pathName (s : String) : String :=
  let r := s.toList.foldl
    (fun (acc : List Char × List Char) c =>
      if c = '/' then (if acc.2 ≠ [] then acc.2 else acc.1, [])
      else (acc.1, acc.2 ++ [c]))
    ([], [])
  String.mk (if r.2 ≠ [] then r.2 else r.1)

/-- A typed metadata record (`modos_schema` instance) as a tagged variant:
one class tag plus the union of the slot fields used by the core; a record
only exposes the slots listed in `classSlots` of its tag. -/
structure Element where
  cls : ElemClass
  id : String
  name : Option String := none
  description : Option String := none
  creation_date : Option String := none
  last_update_date : Option String := none
  source_uri : Option String := none
  has_assay : List String := []
  omics_type : Option String := none
  has_sample : List String := []
  has_data : List String := []
  cell_type : Option String := none
  taxon_id : Option String := none
  data_path : Option String := none
  data_format : Option String := none
  data_checksum : Option String := none
  has_reference : List String := []
  has_sequence : List String := []
  deriving DecidableEq, Repr

/-- JSON value of an optional scalar slot. -/
def optStr (v : Option String) : AttrValue :=
  match v with
  | some s => .str s
  | none => .null

/-- Value of one slot of an element, as serialized by the JSON dumper. -/
def slotValue (e : Element) (s : String) : AttrValue :=
  match s with
  | "id" => .str e.id
  | "name" => optStr e.name
  | "description" => optStr e.description
  | "creation_date" => optStr e.creation_date
  | "last_update_date" => optStr e.last_update_date
  | "source_uri" => optStr e.source_uri
  | "has_assay" => .list e.has_assay
  | "omics_type" => optStr e.omics_type
  | "has_sample" => .list e.has_sample
  | "has_data" => .list e.has_data
  | "cell_type" => optStr e.cell_type
  | "taxon_id" => optStr e.taxon_id
  | "data_path" => optStr e.data_path
  | "data_format" => optStr e.data_format
  | "data_checksum" => optStr e.data_checksum
  | "has_reference" => .list e.has_reference
  | "has_sequence" => .list e.has_sequence
  | _ => .null

/-- `json.loads(json_dumper.dumps(element))`: the record as a flat JSON
dict with its `@type` tag; empty properties present as null / empty lists
(see the comment in `update_metadata_from_model`). -/
def jsonDump (e : Element) : Attrs :=
  ("@type", .str (clsName e.cls)) ::
    (classSlots e.cls).map (fun s => (s, slotValue e s))

/-- Read one multivalued has-part slot of an element. -/
def getSlotList (e : Element) (s : String) : List String :=
  match s with
  | "has_assay" => e.has_assay
  | "has_sample" => e.has_sample
  | "has_data" => e.has_data
  | "has_reference" => e.has_reference
  | "has_sequence" => e.has_sequence
  | _ => []

/-- Write one multivalued has-part slot of an element (`setattr`). -/
def setSlotList (e : Element) (s : String) (l : List String) : Element :=
  match s with
  | "has_assay" => { e with has_assay := l }
  | "has_sample" => { e with has_sample := l }
  | "has_data" => { e with has_data := l }
  | "has_reference" => { e with has_reference := l }
  | "has_sequence" => { e with has_sequence := l }
  | _ => e

/-- `update_haspart_id`: in every has-part slot the element carries, rewrite
each id lacking a type prefix to the `"<type>/<id>"` form, the type being
the slot's allowed target type; full ids are kept unchanged. -/
def updateHaspartId (e : Element) : Element :=
  let haspartList := haspartSlots.filter (fun h => h ∈ classSlots e.cls)
  haspartList.foldl
    (fun acc h =>
      match haspartRange h with
      | none => acc
      | some c =>
        match elementTypeName c with
        | none => acc
        | some tn =>
          setSlotList acc h
            ((getSlotList acc h).map
              (fun i => if isFullId i then i else tn ++ "/" ++ i)))
    e

/-- `update_metadata_from_model`: merge the dumped record into a group's
attributes, keeping only pairs that are not already stored verbatim, are not
the `id`, and are not empty (null or the empty list). -/
def updateMetadataFromModel (attrs : Attrs) (e : Element) : Attrs :=
  let newd := jsonDump e
  let newItems := newd.filter (fun p =>
    !(attrsMemPair attrs p.1 p.2) && p.1 != "id" &&
      p.2 != AttrValue.null && p.2 != AttrValue.list [])
  newItems.foldl (fun acc p => attrsSet acc p.1 p.2) attrs

/-- Read an optional scalar slot back from stored attributes
(`dict_to_instance` field decoding). -/
def attrStrOpt (a : Attrs) (k : String) : Option String :=
  match attrsGet a k with
  | some (.str s) => some s
  | _ => none

/-- Read a multivalued slot back from stored attributes; the loader wraps a
stored scalar into a singleton list. -/
def attrStrList (a : Attrs) (k : String) : List String :=
  match attrsGet a k with
  | some (.list l) => l
  | some (.str s) => [s]
  | _ => []

/-- Rebuild an element of class `c` from stored attributes
(`target_class(**fields)`); slots not in `classSlots c` keep defaults. -/
def buildElement (c : ElemClass) (a : Attrs) : Element :=
  { cls := c
    id := (attrStrOpt a "id").getD ""
    name := attrStrOpt a "name"
    description := attrStrOpt a "description"
    creation_date := attrStrOpt a "creation_date"
    last_update_date := attrStrOpt a "last_update_date"
    source_uri := attrStrOpt a "source_uri"
    has_assay := attrStrList a "has_assay"
    omics_type := attrStrOpt a "omics_type"
    has_sample := attrStrList a "has_sample"
    has_data := attrStrList a "has_data"
    cell_type := attrStrOpt a "cell_type"
    taxon_id := attrStrOpt a "taxon_id"
    data_path := attrStrOpt a "data_path"
    data_format := attrStrOpt a "data_format"
    data_checksum := attrStrOpt a "data_checksum"
    has_reference := attrStrList a "has_reference"
    has_sequence := attrStrList a "has_sequence" }

/-- `dict_to_instance`: dispatch on the `@type` tag and rebuild the record;
an unknown or missing tag raises `ValueError` in `class_from_name`. -/
def dictToInstance (a : Attrs) : Except Err Element :=
  match attrsGet a "@type" with
  | some (.str tn) =>
    match classFromName tn with
    | some c => .ok (buildElement c a)
    | none => .error (.valueError ("Unknown class name: " ++ tn))
  | _ => .error (.valueError "Unknown class name: None")

/-! ### Storage backend and data element binder

Physical files are modelled as a map from archive-relative path to the
BLAKE2b digest of the file's bytes: the core never inspects file contents
except through `compute_checksum`, so a file is represented by its digest
and `compute_checksum` is the identity on that representation. -/

/-- File store of a backend: relative path to content digest. -/
abbrev FileMap := List (String × String)

/-- `LocalStorage.put`: (over)write `target` with the stream's contents. -/
def fmPut (fs : FileMap) (target digest : String) : FileMap :=
  dSet fs target digest

/-- `LocalStorage.remove`: delete the file if present, no error if absent. -/
def fmRemove (fs : FileMap) (target : String) : FileMap :=
  dErase fs target

/-- `LocalStorage.move` (`shutil.move`): relocate a file; raises when the
source does not exist. -/
def fmMove (fs : FileMap) (src dst : String) : Except Err FileMap :=
  match dGet fs src with
  | none => .error (.fileNotFound src)
  | some c => .ok (fmPut (fmRemove fs src) dst c)

/-- Index suffix of a genomic file path, from the `GenomicFileSuffix`
suffix-to-index table (`from_path` / `get_index_suffix`). -/
def idxSuffix (p : String) : Option String :=
  if strEndsWith p ".cram" then some ".crai"
  else if strEndsWith p ".fasta" || strEndsWith p ".fa" then some ".fai"
  else if strEndsWith p ".fastq" || strEndsWith p ".fq" then some ".fai"
  else if strEndsWith p ".bam" || strEndsWith p ".sam" then some ".bai"
  else if strEndsWith p ".vcf.gz" || strEndsWith p ".vcf" then some ".tbi"
  else if strEndsWith p ".bcf" then some ".csi"
  else none

/-- Modelled from the spec: the index-suffix form of a target path
(`modos.genomics.formats.get_index` is absent from the sources); the
companion index travels as the primary path extended by its index suffix,
e.g. `demo1.cram` to `demo1.cram.crai`. -/
def indexPath (p : String) : Option String :=
  (idxSuffix p).map (fun s => p ++ s)

/-- Modelled from the spec: `get_index` on an existing source file — the
companion index path when the fixed suffix mapping applies and the index
file exists next to the source in the given file map. -/
def getIndex (fs : FileMap) (p : String) : Option String :=
  (indexPath p).filter (fun ip => dHasKey fs ip)

/-- `DataElement._update_checksum`: recompute the digest of the source file
and store it on the record when it differs. -/
def deUpdateChecksum (ext : FileMap) (m : Element) (sourcePath : String) :
    Except Err Element :=
  match dGet ext sourcePath with
  | none => .error (.fileNotFound sourcePath)
  | some digest =>
    .ok (if some digest ≠ m.data_checksum
      then { m with data_checksum := some digest } else m)

/-- `DataElement.add_file`: copy the source into storage at `target`; when
a companion index exists next to the source, copy it too under the
index-suffix form of `target`; recompute the checksum of the primary file
and update the record's `data_path`. `ext` holds the caller's local source
files, `st` the archive storage. -/
def deAddFile (ext st : FileMap) (m : Element) (source target : String) :
    Except Err (FileMap × Element) :=
  match dGet ext source with
  | none => .error (.fileNotFound source)
  | some content =>
    let st1 := fmPut st target content
    let st2res : Except Err FileMap :=
      match getIndex ext source with
      | some sidx =>
        match indexPath target with
        | some tidx =>
          match dGet ext sidx with
          | none => .error (.fileNotFound sidx)
          | some ic => .ok (fmPut st1 tidx ic)
        | none => .ok st1
      | none => .ok st1
    match st2res with
    | .error err => .error err
    | .ok st2 =>
      match deUpdateChecksum ext m source with
      | .error err => .error err
      | .ok m1 => .ok (st2, { m1 with data_path := some target })

/-- `DataElement.move_file`: relocate the currently referenced file (and
its index, when it exists in storage) to `target`; the record is not
changed — in particular the checksum is not recomputed. -/
def deMoveFile (st : FileMap) (m : Element) (target : String) :
    Except Err FileMap :=
  match m.data_path with
  | none => .error (.typeError "data_path must not be None")
  | some sourcePath =>
    match fmMove st sourcePath target with
    | .error err => .error err
    | .ok st1 =>
      match getIndex st1 sourcePath with
      | some sidx =>
        match indexPath target with
        | some tidx => fmMove st1 sidx tidx
        | none => .ok st1
      | none => .ok st1

/-- `DataElement.remove_file`: delete the file and its index companion;
removal of an absent path is a no-op, so the pure index-suffix form is
used. -/
def deRemoveFile (st : FileMap) (rmPath : String) : FileMap :=
  let st1 := fmRemove st rmPath
  match indexPath rmPath with
  | some ip => fmRemove st1 ip
  | none => st1

/-- `DataElement.update_file`: resolve the four cases of
{path changed, checksum changed} into exactly one action. In the
both-changed case the source removes `self.storage.path / old_path`; the
backend joins that absolute path onto its own root again, which collapses
to the relative `old_path`. -/
def deUpdateFile (ext st : FileMap) (m : Element) (newPath : String)
    (source : Option String) : Except Err (FileMap × Element) :=
  match m.data_path with
  | none => .error (.typeError "data_path must not be None")
  | some oldPath =>
    match source with
    | none =>
      -- no source file: checksum_has_changed is False
      if newPath ≠ oldPath then
        match deMoveFile st m newPath with
        | .error err => .error err
        | .ok st1 => .ok (st1, m)
      else .ok (st, m)
    | some src =>
      let oldCk := m.data_checksum
      match deUpdateChecksum ext m src with
      | .error err => .error err
      | .ok m1 =>
        let ckChanged := oldCk != m1.data_checksum
        match newPath != oldPath, ckChanged with
        | false, false => .ok (st, m1)
        | false, true => deAddFile ext st m1 src newPath
        | true, false =>
          match deMoveFile st m1 newPath with
          | .error err => .error err
          | .ok st1 => .ok (st1, m1)
        | true, true =>
          match deAddFile ext st m1 src newPath with
          | .error err => .error err
          | .ok (st1, m2) => .ok (deRemoveFile st1 oldPath, m2)

/-! ### Archive state and metadata tree -/

/-- The whole archive: the zarr root's attribute map, the top-level
container groups, the element groups keyed by `"<type>/<local-id>"`, the
data files outside the zarr store, and the consolidated metadata snapshot
(`.zmetadata`) last materialized by `zarr.consolidate_metadata`. -/
structure Archive where
  rootAttrs : Attrs
  containers : List String
  elements : List (String × Attrs)
  files : FileMap
  snapshot : Option (List (String × Attrs))
  deriving DecidableEq, Repr

/-- `root.attrs["id"]` (present in every initialized archive). -/
def rootId (a : Archive) : String :=
  match attrsGet a.rootAttrs "id" with
  | some (.str s) => s
  | _ => ""

/-- The flat metadata dictionary `MODO.metadata` computes from a root
group: the root's attributes keyed by the root id, then each element group
keyed by `"<type>/<local-id>"`. -/
def liveMetadata (a : Archive) : List (String × Attrs) :=
  (rootId a, a.rootAttrs) :: a.elements

/-- `zarr.consolidate_metadata`: materialize the consolidated snapshot. -/
def consolidateMetadata (a : Archive) : Archive :=
  { a with snapshot := some (liveMetadata a) }

/-- `MODO.metadata` reads through `zarr.open_consolidated`: the snapshot,
not the live tree. -/
def metadataView (a : Archive) : List (String × Attrs) :=
  a.snapshot.getD []

/-- `MODO.update_date`: write today's date into the root attributes. -/
def updateDate (a : Archive) (today : String) : Archive :=
  { a with rootAttrs := attrsSet a.rootAttrs "last_update_date" (.str today) }

/-- `init_zarr`: an empty root group plus the five fixed containers, in
`ElementType` declaration order. -/
def initZarr : Archive :=
  { rootAttrs := []
    containers := elementTypeValues
    elements := []
    files := []
    snapshot := none }

/-- Python truthiness of an attribute value (`if val:`). -/
def truthy (v : AttrValue) : Bool :=
  match v with
  | .null => false
  | .str s => s ≠ ""
  | .list l => l ≠ []

/-- `MODO.__init__` on a local path: open the store (initializing the zarr
root and containers when the directory has none), and when the root has no
attributes yet, normalize the has-part ids of the root record, write its
truthy fields and consolidate. `prior` is the store found at the path, if
any. -/
def modoInit (prior : Option Archive) (id creationDate lastUpdateDate : String)
    (name description sourceUri : Option String) (hasAssay : List String) :
    Archive :=
  let store := match prior with
    | some s => s
    | none => initZarr
  if store.rootAttrs.isEmpty then
    let e : Element :=
      { cls := .modo
        id := id
        creation_date := some creationDate
        last_update_date := some lastUpdateDate
        name := name
        description := description
        has_assay := hasAssay
        source_uri := sourceUri }
    let e1 := updateHaspartId e
    -- asdict field order, with "@type" re-added after sanitization
    let fields :=
      (classSlots .modo).map (fun s => (s, slotValue e1 s)) ++
        [("@type", AttrValue.str "MODO")]
    let rootAttrs := fields.foldl
      (fun acc p => if truthy p.2 then attrsSet acc p.1 p.2 else acc) []
    consolidateMetadata { store with rootAttrs := rootAttrs }
  else store

/-- The local branch of the CLI `create` command: refuse to proceed when
the target directory already exists, otherwise build the archive at the
fresh path. -/
def cliCreate (prior : Option Archive) (id creationDate lastUpdateDate : String)
    (name description sourceUri : Option String) (hasAssay : List String) :
    Except Err Archive :=
  match prior with
  | some _ => .error (.valueError "Directory already exists")
  | none =>
    .ok (modoInit none id creationDate lastUpdateDate name description
      sourceUri hasAssay)

/-! ### Facade operations -/

/-- The body of `set_haspart_relationship` once the parent's declared type
is resolved: look up the has-part property accepting the child class,
require the parent type to expose it, then append the child's full id
(creating the list when absent and wrapping a pre-existing scalar). -/
def setHaspartCore (childClass childPath : String) (parentAttrs : Attrs)
    (parentCls : ElemClass) : Except Err Attrs :=
  match getHaspartProperty childClass with
  | none =>
    .error (.valueError ("Cannot make " ++ childPath ++
      " part of parent: no has-part property accepts " ++ childClass))
  | some h =>
    if h ∈ classSlots parentCls then
      let pa := if attrsHasKey parentAttrs h then parentAttrs
        else attrsSet parentAttrs h (.list [])
      let pa2 :=
        match attrsGet pa h with
        | some (.str s) => attrsSet pa h (.list [s])
        | _ => pa
      match attrsGet pa2 h with
      | some (.list l) => .ok (attrsSet pa2 h (.list (l ++ [childPath])))
      | _ => .error (.typeError "unsupported operand type for +=")
    else
      .error (.valueError ("Cannot make " ++ childPath ++ " part of parent: " ++
        clsName parentCls ++ " does not have property " ++ h))

/-- `set_haspart_relationship`: resolve the parent group's declared type
(`getattr(model, parent.attrs["@type"])`) and run `setHaspartCore`; fails
when the parent's declared type has no matching has-part attribute. -/
def setHaspartRelationship (childClass childPath : String)
    (parentAttrs : Attrs) : Except Err Attrs :=
  match attrsGet parentAttrs "@type" with
  | some (.str parentTypeName) =>
    match classFromName parentTypeName with
    | none =>
      .error (.typeError ("unknown parent type: " ++ parentTypeName))
    | some parentCls =>
      setHaspartCore childClass childPath parentAttrs parentCls
  | _ => .error (.typeError "parent group has no @type attribute")

/-- `add_metadata_group`: create a child group of the type container named
by the sanitized id and fill every attribute except `id`. -/
def addMetadataGroup (a : Archive) (typeName : String) (attrs : Attrs) :
    Except Err Archive :=
  match attrsGet attrs "id" with
  | some (.str idStr) =>
    let groupName := charReplace idStr '/' '_'
    let path := typeName ++ "/" ++ groupName
    if dHasKey a.elements path then
      .error (.valueError ("group already exists: " ++ path))
    else
      let ga := (attrs.filter (fun p => p.1 != "id")).foldl
        (fun acc p => attrsSet acc p.1 p.2) []
      .ok { a with elements := a.elements ++ [(path, ga)] }
  | _ => .error (.keyError "id")

/-- `MODO._add_any_element`: duplicate-id check over the consolidated view,
optional file binding, typing, relationship update, has-part
normalization, attribute-group write, timestamp, consolidation. `ext`
holds the caller's local files addressed by `source`. -/
def addAnyElement (today : String) (a : Archive) (e : Element)
    (source : Option String) (ext : FileMap) (partOf : Option String)
    (userOnly : Bool) : Except Err Archive :=
  if (metadataView a).any (fun p => pathName p.1 == e.id) then
    .error (.valueError ("Please specify a unique ID. Element with ID " ++
      e.id ++ " already exist."))
  else
    let sourceRes : Except Err (Archive × Element) :=
      match source with
      | none => .ok (a, e)
      | some src =>
        let refRes : Except Err (Archive × Element) :=
          if e.cls = ElemClass.referenceGenome then
            match e.data_path with
            | none => .error (.typeError "data_path must not be None")
            | some tp =>
              match dGet ext src with
              | none => .error (.fileNotFound src)
              | some c => .ok ({ a with files := fmPut a.files tp c }, e)
          else .ok (a, e)
        match refRes with
        | .error err => .error err
        | .ok (aR, eR) =>
          if eR.cls = ElemClass.dataEntity then
            match eR.data_path with
            | none => .error (.typeError "data_path must not be None")
            | some dp =>
              match deAddFile ext aR.files eR src dp with
              | .error err => .error err
              | .ok (st, m) => .ok ({ aR with files := st }, m)
          else .ok (aR, eR)
    match sourceRes with
    | .error err => .error err
    | .ok (a1, e1) =>
      match (if userOnly then userElementTypeName e1.cls
        else elementTypeName e1.cls) with
      | none => .error (.valueError "Unknown object type")
      | some typeName =>
        if typeName ∈ a1.containers then
          let elementPath := typeName ++ "/" ++ e1.id
          let linkRes : Except Err Archive :=
            if typeName = "assay" ∨ partOf.isSome then
              match partOf with
              | some p =>
                match dGet a1.elements p with
                | none => .error (.keyError p)
                | some pattrs =>
                  match setHaspartRelationship (clsName e1.cls) elementPath
                    pattrs with
                  | .error err => .error err
                  | .ok pa =>
                    .ok { a1 with elements := dSet a1.elements p pa }
              | none =>
                match setHaspartRelationship (clsName e1.cls) elementPath
                  a1.rootAttrs with
                | .error err => .error err
                | .ok ra => .ok { a1 with rootAttrs := ra }
            else .ok a1
          match linkRes with
          | .error err => .error err
          | .ok a2 =>
            match addMetadataGroup a2 typeName
              (jsonDump (updateHaspartId e1)) with
            | .error err => .error err
            | .ok a3 => .ok (consolidateMetadata (updateDate a3 today))
        else .error (.keyError typeName)

/-- `MODO.add_element`: the user-facing add, restricted to the user element
types. -/
def addElement (today : String) (a : Archive) (e : Element)
    (source : Option String) (ext : FileMap) (partOf : Option String) :
    Except Err Archive :=
  addAnyElement today a e source ext partOf true

/-- `MODO.update_element`: load (or create) the element's group, check the
record type, reconcile the data file, optionally re-link a parent,
normalize has-part ids, merge changed non-empty fields, touch the
timestamp, consolidate. -/
def updateElement (today : String) (a : Archive) (elementId : String)
    (new : Element) (source : Option String) (ext : FileMap)
    (partOf : Option String) : Except Err Archive :=
  let load :=
    match dGet a.elements elementId with
    | some g => (a, g)
    | none => ({ a with elements := a.elements ++ [(elementId, [])] },
        ([] : Attrs))
  let a0 := load.1
  let groupAttrs := load.2
  match dictToInstance (attrsSet groupAttrs "id" (.str elementId)) with
  | .error err => .error err
  | .ok element =>
    if new.cls = element.cls then
      let fileRes : Except Err (Archive × Element) :=
        if element.cls = ElemClass.dataEntity then
          match new.data_path with
          | none => .error (.typeError "data_path must not be None")
          | some np =>
            match deUpdateFile ext a0.files element np source with
            | .error err => .error err
            | .ok (st, m) =>
              .ok ({ a0 with files := st },
                { new with data_checksum := m.data_checksum })
        else .ok (a0, new)
      match fileRes with
      | .error err => .error err
      | .ok (a1, new1) =>
        match userElementTypeName new1.cls with
        | none => .error (.valueError "Unknown object type")
        | some typeName =>
          let elementPath := typeName ++ "/" ++ new1.id
          let linkRes : Except Err Archive :=
            match partOf with
            | some p =>
              match dGet a1.elements p with
              | none => .error (.keyError p)
              | some pattrs =>
                match setHaspartRelationship (clsName new1.cls) elementPath
                  pattrs with
                | .error err => .error err
                | .ok pa => .ok { a1 with elements := dSet a1.elements p pa }
            | none => .ok a1
          match linkRes with
          | .error err => .error err
          | .ok a2 =>
            let new2 := updateHaspartId new1
            let ga := (dGet a2.elements elementId).getD []
            let ga2 := updateMetadataFromModel ga new2
            let a3 := { a2 with elements := dSet a2.elements elementId ga2 }
            .ok (consolidateMetadata (updateDate a3 today))
    else
      .error (.valueError ("Class " ++ clsName element.cls ++ " of " ++
        elementId ++ " does not match " ++ clsName new.cls ++ "."))

/-- One row of `remove_element`'s link-cleanup loop: scan the attributes of
one metadata entry (as recorded in the consolidated snapshot) and, on the
live store, delete a scalar attribute equal to the removed id or assign the
result of `list.remove` — which is `None` — to a list attribute containing
it. -/
def removeLinksRow (target elemKey : String) (es : List (String × Attrs)) :
    Attrs → Except Err (List (String × Attrs))
  | [] => .ok es
  | p :: rest =>
    if p.2 = AttrValue.str target then
      match dGet es elemKey with
      | none => .error (.keyError elemKey)
      | some g =>
        removeLinksRow target elemKey (dSet es elemKey (attrsErase g p.1)) rest
    else
      match p.2 with
      | .list l =>
        if target ∈ l then
          match dGet es elemKey with
          | none => .error (.keyError elemKey)
          | some g =>
            removeLinksRow target elemKey
              (dSet es elemKey (attrsSet g p.1 AttrValue.null)) rest
        else removeLinksRow target elemKey es rest
      | _ => removeLinksRow target elemKey es rest

/-- The full link-cleanup loop over every entry of the consolidated
metadata view. -/
def removeLinks (target : String) (es : List (String × Attrs)) :
    List (String × Attrs) → Except Err (List (String × Attrs))
  | [] => .ok es
  | row :: rest =>
    match removeLinksRow target row.1 es row.2 with
    | .error err => .error err
    | .ok es2 => removeLinks target es2 rest

/-- `MODO.remove_element`: fail when the id is absent; remove the primary
data file when a `data_path` attribute exists (`self.path / data_path`
joined under the backend root again collapses to the relative path);
delete the group; clean links using the consolidated snapshot; touch the
timestamp; consolidate. -/
def removeElement (today : String) (a : Archive) (elementId : String) :
    Except Err Archive :=
  match dGet a.elements elementId with
  | none => .error (.keyError elementId)
  | some attrs =>
    let fileRes : Except Err Archive :=
      if attrsHasKey attrs "data_path" then
        match attrsGet attrs "data_path" with
        | some (.str p) => .ok { a with files := fmRemove a.files p }
        | _ => .error (.typeError "data_path must be a valid path")
      else .ok a
    match fileRes with
    | .error err => .error err
    | .ok a1 =>
      let a2 := { a1 with elements := dErase a1.elements elementId }
      match removeLinks elementId a2.elements (metadataView a) with
      | .error err => .error err
      | .ok es =>
        .ok (consolidateMetadata (updateDate { a2 with elements := es } today))

/-! ### Encryption and decryption bookkeeping

The cryptographic transform itself is the external crypt4gh collaborator;
on the digest representation of file contents it is modelled as prefixing
the crypt4gh magic, which is also what `is_encrypted` detects. -/

/-- `GenomicFileSuffix.list_formats()`. -/
def genomicFormats : List String :=
  ["CRAM", "FASTA", "FASTQ", "BAM", "SAM", "VCF", "BCF"]

/-- `DataElement.is_genomic`: the record's data format is a genomic one. -/
def isGenomic (m : Element) : Bool :=
  match m.data_format with
  | some f => f ∈ genomicFormats
  | none => false

/-- Modelled from the spec: `is_encrypted` (in the absent
`modos.genomics.formats`) detects the crypt4gh magic at the start of the
file. -/
def isEncrypted (content : String) : Bool :=
  strStartsWith content "crypt4gh"

/-- Modelled from the spec: the external encryption collaborator's
transform on the digest representation of a file's contents. -/
def c4ghEncContent (c : String) : String :=
  "crypt4gh" ++ c

/-- Modelled from the spec: the external decryption collaborator's
transform, inverse of `c4ghEncContent`. -/
def c4ghDecContent (c : String) : String :=
  String.mk (c.toList.drop 8)

/-- Modelled from the spec: `remove_suffix` strips a trailing suffix from
a path. -/
def removeSuffixStr (p suf : String) : String :=
  if strEndsWith p suf then strDropRight p suf.length else p

/-- `DataElement.encrypt`: skip non-genomic or already-encrypted files;
encrypt the primary file and its index together into `.c4gh` companions,
optionally deleting the plaintext; recompute the checksum from the
encrypted primary and rewrite `data_path` with the new suffix. -/
def deEncrypt (st : FileMap) (m : Element) (delete : Bool) :
    Except Err (FileMap × Element) :=
  if isGenomic m then
    match m.data_path with
    | none => .error (.typeError "data_path must not be None")
    | some dp =>
      match dGet st dp with
      | none => .error (.fileNotFound dp)
      | some content =>
        if isEncrypted content then .ok (st, m)
        else
          let encPath := dp ++ ".c4gh"
          let targets := dp :: (match getIndex st dp with
            | some i => [i]
            | none => [])
          match targets.foldlM (fun (stAcc : FileMap) (fp : String) =>
            (match dGet stAcc fp with
            | none => .error (.fileNotFound fp)
            | some c =>
              let stB := fmPut stAcc (fp ++ ".c4gh") (c4ghEncContent c)
              .ok (if delete then fmRemove stB fp else stB)
            : Except Err FileMap)) st with
          | .error err => .error err
          | .ok st2 =>
            match deUpdateChecksum st2 m encPath with
            | .error err => .error err
            | .ok m1 => .ok (st2, { m1 with data_path := some encPath })
  else .ok (st, m)

/-- `DataElement.decrypt`: skip files that are not encrypted; require the
`.c4gh` suffix; decrypt the primary file and its index companion (when its
encrypted form exists in storage), removing the encrypted files; recompute
the checksum from the decrypted primary and rewrite `data_path`. -/
def deDecrypt (st : FileMap) (m : Element) :
    Except Err (FileMap × Element) :=
  match m.data_path with
  | none => .error (.typeError "data_path must not be None")
  | some dp =>
    match dGet st dp with
    | none => .error (.fileNotFound dp)
    | some content =>
      if isEncrypted content then
        if strEndsWith dp ".c4gh" then
          let decPath := removeSuffixStr dp ".c4gh"
          let idxEnc := (indexPath decPath).map (fun i => i ++ ".c4gh")
          let targets := dp :: (match idxEnc with
            | some i => if dHasKey st i then [i] else []
            | none => [])
          match targets.foldlM (fun (stAcc : FileMap) (fp : String) =>
            (match dGet stAcc fp with
            | none => .error (.fileNotFound fp)
            | some c =>
              let stB := fmPut stAcc (removeSuffixStr fp ".c4gh")
                (c4ghDecContent c)
              .ok (fmRemove stB fp)
            : Except Err FileMap)) st with
          | .error err => .error err
          | .ok st2 =>
            match deUpdateChecksum st2 m decPath with
            | .error err => .error err
            | .ok m1 => .ok (st2, { m1 with data_path := some decPath })
        else
          .error (.valueError ("File " ++ dp ++ " has unknown suffix."))
      else .ok (st, m)

/-- One iteration of `MODO.encrypt`'s loop over the `data` container: read
the group's record (its id being the member's local name), run the
element's encryption bookkeeping, merge the record back into the group. -/
def encryptStep (delete : Bool) (acc : Archive) (pg : String × Attrs) :
    Except Err Archive :=
  match dictToInstance (attrsSet pg.2 "id" (.str (pathName pg.1))) with
  | .error err => .error err
  | .ok inst =>
    match deEncrypt acc.files inst delete with
    | .error err => .error err
    | .ok (st, m) =>
      .ok { acc with
              files := st,
              elements := dSet acc.elements pg.1
                (updateMetadataFromModel pg.2 m) }

/-- One iteration of `MODO.decrypt`'s loop over the `data` container. -/
def decryptStep (acc : Archive) (pg : String × Attrs) : Except Err Archive :=
  match dictToInstance (attrsSet pg.2 "id" (.str (pathName pg.1))) with
  | .error err => .error err
  | .ok inst =>
    match deDecrypt acc.files inst with
    | .error err => .error err
    | .ok (st, m) =>
      .ok { acc with
              files := st,
              elements := dSet acc.elements pg.1
                (updateMetadataFromModel pg.2 m) }

/-- `MODO.encrypt`: run the encryption bookkeeping over every group in the
`data` container and touch the timestamp. No consolidation step follows. -/
def modoEncrypt (today : String) (a : Archive) (delete : Bool) :
    Except Err Archive :=
  if "data" ∈ a.containers then
    let members := a.elements.filter (fun p => strStartsWith p.1 "data/")
    match members.foldlM (encryptStep delete) a with
    | .error err => .error err
    | .ok a1 => .ok (updateDate a1 today)
  else .error (.keyError "data")

/-- `MODO.decrypt`: run the decryption bookkeeping over every group in the
`data` container and touch the timestamp. No consolidation step follows. -/
def modoDecrypt (today : String) (a : Archive) : Except Err Archive :=
  if "data" ∈ a.containers then
    let members := a.elements.filter (fun p => strStartsWith p.1 "data/")
    match members.foldlM decryptStep a with
    | .error err => .error err
    | .ok a1 => .ok (updateDate a1 today)
  else .error (.keyError "data")

/-! ### Dictionary lemmas -/

theorem dGet_dSet_self {β : Type} (a : List (String × β)) (k : String) (v : β) :
    dGet (dSet a k v) k = some v := by
  induction a with
  | nil => simp [dGet, dSet]
  | cons p rest ih =>
    by_cases h : p.1 = k
    · simp [dGet, dSet, h]
    · simp [dGet, dSet, h, ih]

theorem dGet_dSet_ne {β : Type} (a : List (String × β)) (k k2 : String) (v : β)
    (h : k2 ≠ k) : dGet (dSet a k v) k2 = dGet a k2 := by
  induction a with
  | nil => simp [dGet, dSet, Ne.symm h]
  | cons p rest ih =>
    by_cases hp : p.1 = k
    · subst hp
      simp [dGet, dSet, Ne.symm h]
    · simp only [dSet, if_neg hp]
      by_cases hp2 : p.1 = k2
      · simp [dGet, hp2]
      · simp [dGet, hp2, ih]

theorem dSet_dSet_self {β : Type} (a : List (String × β)) (k : String) (v w : β) :
    dSet (dSet a k v) k w = dSet a k w := by
  induction a with
  | nil => simp [dSet]
  | cons p rest ih =>
    by_cases h : p.1 = k
    · simp [dSet, h]
    · simp [dSet, h, ih]

theorem dSet_dGet_self {β : Type} (a : List (String × β)) (k : String) (v : β)
    (h : dGet a k = some v) : dSet a k v = a := by
  induction a with
  | nil => simp [dGet] at h
  | cons p rest ih =>
    by_cases hp : p.1 = k
    · simp only [dGet, hp, if_pos rfl] at h
      cases p
      simp_all [dSet]
    · simp only [dGet, if_neg hp] at h
      simp [dSet, hp, ih h]

theorem dGet_dErase_ne {β : Type} (a : List (String × β)) (k k2 : String)
    (h : k2 ≠ k) : dGet (dErase a k) k2 = dGet a k2 := by
  induction a with
  | nil => simp [dErase]
  | cons p rest ih =>
    by_cases hp : p.1 = k
    · simp [dErase, dGet, hp, Ne.symm h]
    · by_cases hp2 : p.1 = k2
      · simp [dErase, dGet, hp, hp2, h]
      · simp [dErase, dGet, hp, hp2, ih]

theorem dGet_none_of_not_mem {β : Type} (a : List (String × β)) (k : String)
    (h : k ∉ a.map Prod.fst) : dGet a k = none := by
  induction a with
  | nil => rfl
  | cons p rest ih =>
    simp only [List.map_cons, List.mem_cons] at h
    push_neg at h
    have hne : p.1 ≠ k := Ne.symm h.1
    simp [dGet, hne, ih h.2]

theorem dGet_eq_of_mem_nodup {β : Type} (a : List (String × β)) (k : String)
    (v : β) (nd : (a.map Prod.fst).Nodup) (h : (k, v) ∈ a) :
    dGet a k = some v := by
  induction a with
  | nil => simp at h
  | cons p rest ih =>
    simp only [List.map_cons, List.nodup_cons] at nd
    rcases List.mem_cons.mp h with h1 | h2
    · subst h1
      simp [dGet]
    · have hne : p.1 ≠ k := by
        intro he
        exact nd.1 (he ▸ (List.mem_map.mpr ⟨(k, v), h2, rfl⟩))
      simp [dGet, hne, ih nd.2 h2]

theorem dGet_dErase_self_nodup {β : Type} (a : List (String × β)) (k : String)
    (nd : (a.map Prod.fst).Nodup) : dGet (dErase a k) k = none := by
  induction a with
  | nil => rfl
  | cons p rest ih =>
    simp only [List.map_cons, List.nodup_cons] at nd
    by_cases hp : p.1 = k
    · subst hp
      simpa [dErase] using dGet_none_of_not_mem rest p.1 nd.1
    · simp [dErase, dGet, hp, ih nd.2]

/-! ### Example archives (built through the embedded operations) -/

/-- Concrete empty archive with root id `ex1`. -/
def exM : Archive :=
  modoInit none "ex1" "2024-01-01" "2024-01-01" none none none []

/-- A concrete assay record. -/
def exAssay : Element :=
  { cls := .assay, id := "assay1", name := some "assay1",
    omics_type := some "GENOMICS" }

/-- A concrete sample record. -/
def exSample : Element :=
  { cls := .sample, id := "sample1", name := some "sample1" }

/-- A second concrete sample record. -/
def exSample2 : Element :=
  { cls := .sample, id := "sample2", name := some "sample2" }

/-- `exM` after adding `exAssay` (extracted from the successful result). -/
def exA1 : Archive :=
  ((addElement "d1" exM exAssay none [] none).toOption).getD initZarr

/-- `exA1` after adding the two samples under `assay/assay1`. -/
def exA3 : Archive :=
  (((addElement "d2" exA1 exSample none [] (some "assay/assay1")).bind
    (fun a => addElement "d3" a exSample2 none [] (some "assay/assay1"))).toOption).getD
    initZarr

/-- A concrete data entity bound to a BAM file with a companion index. -/
def exDataEnt : Element :=
  { cls := .dataEntity, id := "x", data_path := some "a.bam",
    data_format := some "BAM" }

/-- `exM` after adding `exDataEnt` with source file `src.bam` (digest `d1`)
and its index `src.bam.bai` (digest `di`). -/
def exAData : Archive :=
  ((addElement "d1" exM exDataEnt (some "src.bam")
    [("src.bam", "d1"), ("src.bam.bai", "di")] none).toOption).getD initZarr

/-! ### Duplicate-id checks (C4, C10) -/

/-- Shared helper: the first statement of `_add_any_element` rejects any id
whose local part collides with the local part of a consolidated metadata
key. -/
theorem addAnyElement_duplicate_error (today : String) (a : Archive)
    (e : Element) (source : Option String) (ext : FileMap)
    (partOf : Option String) (userOnly : Bool) (k : String)
    (hk : k ∈ (metadataView a).map Prod.fst) (hpn : pathName k = e.id) :
    addAnyElement today a e source ext partOf userOnly =
      .error (.valueError ("Please specify a unique ID. Element with ID " ++
        e.id ++ " already exist.")) := by
  have hany : (metadataView a).any (fun p => pathName p.1 == e.id) = true := by
    rcases List.mem_map.mp hk with ⟨p, hp, rfl⟩
    exact List.any_eq_true.mpr ⟨p, hp, by simp [hpn]⟩
  unfold addAnyElement
  simp [hany]

/-- C4: adding an element whose local id equals the local id of an element
already present in the same type container fails with the duplicate-id
error; the returned value is the error alone, so the failed call leaves no
archive state behind. -/
theorem c4_duplicate_id_same_type (today : String) (a : Archive) (e : Element)
    (source : Option String) (ext : FileMap) (partOf : Option String)
    (tn : String) (_htn : userElementTypeName e.cls = some tn)
    (hk : (tn ++ "/" ++ e.id) ∈ (metadataView a).map Prod.fst)
    (hpn : pathName (tn ++ "/" ++ e.id) = e.id) :
    addElement today a e source ext partOf =
      .error (.valueError ("Please specify a unique ID. Element with ID " ++
        e.id ++ " already exist.")) :=
  addAnyElement_duplicate_error today a e source ext partOf true
    (tn ++ "/" ++ e.id) hk hpn

/-- Witness for C4: re-adding a sample with the already-present local id
`sample1` fails on the concrete archive `exA3`. -/
theorem c4_duplicate_id_same_type_witness :
    addElement "d9" exA3 exSample none [] none =
      .error (.valueError ("Please specify a unique ID. Element with ID " ++
        "sample1" ++ " already exist.")) :=
  c4_duplicate_id_same_type "d9" exA3 exSample none [] none "sample"
    (by decide) (by decide) (by decide)

/-- C10: the duplicate-id check compares against the local part of every
consolidated metadata key — any element of any type, the root included —
so a collision with a differently-typed element also fails. -/
theorem c10_duplicate_global (today : String) (a : Archive) (e : Element)
    (source : Option String) (ext : FileMap) (partOf : Option String)
    (k : String) (hk : k ∈ (metadataView a).map Prod.fst)
    (hpn : pathName k = e.id) :
    addElement today a e source ext partOf =
      .error (.valueError ("Please specify a unique ID. Element with ID " ++
        e.id ++ " already exist.")) :=
  addAnyElement_duplicate_error today a e source ext partOf true k hk hpn

/-- Witness for C10: a sample whose id collides with the assay id
`assay1` (a different container) is rejected, as is one colliding with the
root id `ex1`. -/
theorem c10_duplicate_global_witness :
    addElement "d9" exA3 { cls := .sample, id := "assay1" } none [] none =
      .error (.valueError ("Please specify a unique ID. Element with ID " ++
        "assay1" ++ " already exist.")) ∧
    addElement "d9" exA3 { cls := .sample, id := "ex1" } none [] none =
      .error (.valueError ("Please specify a unique ID. Element with ID " ++
        "ex1" ++ " already exist.")) :=
  ⟨c10_duplicate_global "d9" exA3 { cls := .sample, id := "assay1" } none []
      none "assay/assay1" (by decide) (by decide),
    c10_duplicate_global "d9" exA3 { cls := .sample, id := "ex1" } none []
      none "ex1" (by decide) (by decide)⟩

/-! ### Monadic reduction helpers -/

theorem exc_bind_ok {α β : Type} (a : α) (f : α → Except Err β) :
    (Except.ok a >>= f : Except Err β) = f a := rfl

theorem exc_bind_error {α β : Type} (e : Err) (f : α → Except Err β) :
    (Except.error e >>= f : Except Err β) = Except.error e := rfl

instance {ε α : Type} [DecidableEq ε] [DecidableEq α] :
    DecidableEq (Except ε α) := fun a b =>
  match a, b with
  | .ok x, .ok y => decidable_of_iff (x = y) (by simp)
  | .ok _, .error _ => .isFalse (by simp)
  | .error _, .ok _ => .isFalse (by simp)
  | .error e, .error f => decidable_of_iff (e = f) (by simp)

/-! ### Relationship rejection (C8) -/

/-- C8: linking a child under a parent whose declared type has no has-part
attribute accepting the child's type fails with the invalid-relationship
`ValueError` — both for `set_haspart_relationship` in general (first
conjunct; the error is raised before any attribute write, so the function
returns no updated attributes) and for the concrete scenario of attaching a
`ReferenceGenome` under a `Sample` through `add_element`, where the failed
call returns only the error, writing nothing on either element (second
conjunct). -/
theorem c8_invalid_relationship :
    (∀ (parentAttrs : Attrs) (pt : String) (pc : ElemClass)
      (childClass childPath : String),
      attrsGet parentAttrs "@type" = some (.str pt) →
      classFromName pt = some pc →
      (∀ h, getHaspartProperty childClass = some h → h ∉ classSlots pc) →
      ∃ msg, setHaspartRelationship childClass childPath parentAttrs =
        .error (.valueError msg)) ∧
    addElement "d9" exA3 { cls := .referenceGenome, id := "rg" } none []
        (some "sample/sample1") =
      .error (.valueError ("Cannot make reference/rg part of parent: " ++
        "Sample does not have property has_reference")) := by
  constructor
  · intro parentAttrs pt pc childClass childPath h1 h2 h3
    unfold setHaspartRelationship setHaspartCore
    cases hp : getHaspartProperty childClass with
    | none =>
      simp only [h1, h2, hp]
      exact ⟨_, rfl⟩
    | some h =>
      have hn := h3 h hp
      simp only [h1, h2, hp, hn, if_false]
      exact ⟨_, rfl⟩
  · decide

/-- Witness for C8's first conjunct: a `Sample` parent group rejects a
`ReferenceGenome` child. -/
theorem c8_invalid_relationship_witness :
    ∃ msg, setHaspartRelationship "ReferenceGenome" "reference/rg"
      [("@type", AttrValue.str "Sample")] = .error (.valueError msg) :=
  c8_invalid_relationship.1 [("@type", AttrValue.str "Sample")] "Sample"
    ElemClass.sample "ReferenceGenome" "reference/rg" (by decide) (by decide)
    (by decide)

/-! ### Has-part id normalization (C9) -/

/-- C9: `update_haspart_id` rewrites, in every has-part slot an element
carries, each id lacking a type prefix to `"<type>/<local-id>"` with the
type inferred from the slot's allowed target type, and keeps already
prefixed ids unchanged (first conjunct); and in the create/add/show
scenario the metadata view contains `assay/assay1` with
`has_sample = ["sample/sample1"]` (second conjunct). -/
theorem c9_haspart_normalization :
    (∀ (e : Element) (h tn : String) (c : ElemClass),
      h ∈ haspartSlots → h ∈ classSlots e.cls →
      haspartRange h = some c → elementTypeName c = some tn →
      getSlotList (updateHaspartId e) h =
        (getSlotList e h).map
          (fun i => if isFullId i then i else tn ++ "/" ++ i)) ∧
    ((addElement "d2" exA1 exSample none [] (some "assay/assay1")).map
      (fun a => (dGet (metadataView a) "assay/assay1").map
        (fun g => attrsGet g "has_sample"))) =
      .ok (some (some (.list ["sample/sample1"]))) := by
  constructor
  · intro e h tn c hmem hslots hr he
    cases hc : e.cls with
    | modo =>
      simp only [haspartSlots, List.mem_cons, List.not_mem_nil, or_false] at hmem
      rcases hmem with rfl | rfl | rfl | rfl | rfl <;>
        simp_all [classSlots, haspartRange, elementTypeName, updateHaspartId,
          haspartSlots, getSlotList, setSlotList]
    | sample =>
      simp only [haspartSlots, List.mem_cons, List.not_mem_nil, or_false] at hmem
      rcases hmem with rfl | rfl | rfl | rfl | rfl <;>
        simp_all [classSlots, haspartRange, elementTypeName, updateHaspartId,
          haspartSlots, getSlotList, setSlotList]
    | assay =>
      simp only [haspartSlots, List.mem_cons, List.not_mem_nil, or_false] at hmem
      rcases hmem with rfl | rfl | rfl | rfl | rfl <;>
        simp_all [classSlots, haspartRange, elementTypeName, updateHaspartId,
          haspartSlots, getSlotList, setSlotList]
    | dataEntity =>
      simp only [haspartSlots, List.mem_cons, List.not_mem_nil, or_false] at hmem
      rcases hmem with rfl | rfl | rfl | rfl | rfl <;>
        simp_all [classSlots, haspartRange, elementTypeName, updateHaspartId,
          haspartSlots, getSlotList, setSlotList]
    | referenceGenome =>
      simp only [haspartSlots, List.mem_cons, List.not_mem_nil, or_false] at hmem
      rcases hmem with rfl | rfl | rfl | rfl | rfl <;>
        simp_all [classSlots, haspartRange, elementTypeName, updateHaspartId,
          haspartSlots, getSlotList, setSlotList]
    | referenceSequence =>
      simp only [haspartSlots, List.mem_cons, List.not_mem_nil, or_false] at hmem
      rcases hmem with rfl | rfl | rfl | rfl | rfl <;>
        simp_all [classSlots, haspartRange, elementTypeName, updateHaspartId,
          haspartSlots, getSlotList, setSlotList]
  · decide

/-- Witness for C9's first conjunct: a MODO record with one bare and one
prefixed assay id; only the bare one gains the `assay/` prefix. -/
theorem c9_haspart_normalization_witness :
    getSlotList (updateHaspartId
      { cls := ElemClass.modo, id := "ex1",
        has_assay := ["assay1", "assay/assay2"] }) "has_assay" =
      ["assay/assay1", "assay/assay2"] := by
  have h := c9_haspart_normalization.1
    { cls := ElemClass.modo, id := "ex1",
      has_assay := ["assay1", "assay/assay2"] }
    "has_assay" "assay" ElemClass.assay (by decide) (by decide) (by decide)
    (by decide)
  rw [h]
  decide

/-! ### Archive creation (C5) -/

theorem attrsGet_foldl_truthy (fields : List (String × AttrValue)) (acc : Attrs)
    (k : String) (hk : ∀ p ∈ fields, p.1 ≠ k) :
    attrsGet (fields.foldl
      (fun ac p => if truthy p.2 then attrsSet ac p.1 p.2 else ac) acc) k =
      attrsGet acc k := by
  induction fields generalizing acc with
  | nil => rfl
  | cons p rest ih =>
    have hp := hk p (by simp)
    have hr : ∀ q ∈ rest, q.1 ≠ k := fun q hq => hk q (by simp [hq])
    simp only [List.foldl_cons]
    rw [ih _ hr]
    by_cases ht : truthy p.2
    · simp only [ht, if_true]
      exact dGet_dSet_ne _ _ _ _ (Ne.symm hp)
    · simp [ht]

theorem foldl_truthy_head_true (fields : List (String × AttrValue))
    (p : String × AttrValue) (acc : Attrs) (h : truthy p.2 = true) :
    (p :: fields).foldl
      (fun ac q => if truthy q.2 then attrsSet ac q.1 q.2 else ac) acc =
      fields.foldl
        (fun ac q => if truthy q.2 then attrsSet ac q.1 q.2 else ac)
        (attrsSet acc p.1 p.2) := by
  simp [List.foldl_cons, h]

/-- The root attributes written at first open, as the fold of the sanitized
record fields over the truthiness filter. -/
theorem modoInit_rootAttrs_eq (id c u : String) (name desc src : Option String)
    (ha : List String) :
    (modoInit none id c u name desc src ha).rootAttrs =
      ([("id", AttrValue.str id),
        ("creation_date", AttrValue.str c),
        ("last_update_date", AttrValue.str u),
        ("name", optStr name), ("description", optStr desc),
        ("has_assay", AttrValue.list (ha.map
          (fun i => if isFullId i then i else "assay" ++ "/" ++ i))),
        ("source_uri", optStr src), ("@type", AttrValue.str "MODO")]).foldl
        (fun ac p => if truthy p.2 then attrsSet ac p.1 p.2 else ac) [] := rfl

theorem modoInit_root_id (id c u : String) (name desc src : Option String)
    (ha : List String) (hid : id ≠ "") :
    attrsGet (modoInit none id c u name desc src ha).rootAttrs "id" =
      some (.str id) := by
  rw [modoInit_rootAttrs_eq,
    foldl_truthy_head_true _ _ _ (by simp [truthy, hid])]
  rw [attrsGet_foldl_truthy]
  · exact dGet_dSet_self _ _ _
  · intro p hp
    simp only [List.mem_cons, List.not_mem_nil, or_false] at hp
    rcases hp with rfl | rfl | rfl | rfl | rfl | rfl | rfl <;> simp

/-- C5: opening a path with an empty store initializes the five fixed
containers and writes the root attributes, consolidating them, exactly
once — a second open of the resulting archive changes nothing, whatever
arguments it is given (first conjunct); and the CLI create refuses a
target path that already exists — in particular one holding a non-empty
root — with the already-exists error instead of proceeding (second
conjunct). -/
theorem c5_create_semantics :
    (∀ (id c u : String) (name desc src : Option String) (ha : List String),
      id ≠ "" →
      (modoInit none id c u name desc src ha).containers =
        elementTypeValues ∧
      attrsGet (modoInit none id c u name desc src ha).rootAttrs "id" =
        some (.str id) ∧
      (modoInit none id c u name desc src ha).snapshot =
        some (liveMetadata (modoInit none id c u name desc src ha)) ∧
      (∀ (id2 c2 u2 : String) (name2 desc2 src2 : Option String)
        (ha2 : List String),
        modoInit (some (modoInit none id c u name desc src ha)) id2 c2 u2
          name2 desc2 src2 ha2 = modoInit none id c u name desc src ha)) ∧
    (∀ (a : Archive) (id c u : String) (name desc src : Option String)
      (ha : List String), a.rootAttrs ≠ [] →
      cliCreate (some a) id c u name desc src ha =
        .error (.valueError "Directory already exists")) := by
  constructor
  · intro id c u name desc src ha hid
    refine ⟨rfl, modoInit_root_id id c u name desc src ha hid, rfl, ?_⟩
    intro id2 c2 u2 name2 desc2 src2 ha2
    have hne : (modoInit none id c u name desc src ha).rootAttrs ≠ [] := by
      intro h
      have := modoInit_root_id id c u name desc src ha hid
      rw [h] at this
      exact Option.noConfusion this
    conv_lhs => rw [modoInit]
    have hie : (modoInit none id c u name desc src ha).rootAttrs.isEmpty
        = false := by
      cases hh : (modoInit none id c u name desc src ha).rootAttrs with
      | nil => exact absurd hh hne
      | cons q t => rfl
    simp [hie]
  · intro a id c u name desc src ha _h
    rfl

/-- Witness for C5: the concrete archive `exM` is fully initialized, and
creating again at its (existing, non-empty) path fails. -/
theorem c5_create_semantics_witness :
    exM.containers = elementTypeValues ∧
    cliCreate (some exM) "ex2" "c" "u" none none none [] =
      .error (.valueError "Directory already exists") :=
  ⟨(c5_create_semantics.1 "ex1" "2024-01-01" "2024-01-01" none none none []
      (by decide)).1,
    c5_create_semantics.2 exM "ex2" "c" "u" none none none [] (by decide)⟩

/-! ### Update merge semantics (C7) -/

theorem dGet_filter {β : Type} (a : List (String × β))
    (pred : String × β → Bool) (k : String) (nd : (a.map Prod.fst).Nodup) :
    dGet (a.filter pred) k =
      match dGet a k with
      | some v => if pred (k, v) then some v else none
      | none => none := by
  induction a with
  | nil => rfl
  | cons p rest ih =>
    simp only [List.map_cons, List.nodup_cons] at nd
    by_cases hp : p.1 = k
    · subst hp
      have hrest : dGet rest p.1 = none :=
        dGet_none_of_not_mem rest p.1 nd.1
      by_cases hc : pred p
      · simp [List.filter_cons, hc, dGet]
      · simp [List.filter_cons, hc, dGet, ih nd.2, hrest]
    · by_cases hc : pred p
      · simp [List.filter_cons, hc, dGet, hp, ih nd.2]
      · simp [List.filter_cons, hc, dGet, hp, ih nd.2]

theorem attrsGet_foldl_set (items : List (String × AttrValue)) (attrs : Attrs)
    (k : String) (nd : (items.map Prod.fst).Nodup) :
    attrsGet (items.foldl (fun acc p => attrsSet acc p.1 p.2) attrs) k =
      match dGet items k with
      | some v => some v
      | none => attrsGet attrs k := by
  induction items generalizing attrs with
  | nil => rfl
  | cons p rest ih =>
    simp only [List.map_cons, List.nodup_cons] at nd
    simp only [List.foldl_cons]
    rw [ih _ nd.2]
    by_cases hp : p.1 = k
    · subst hp
      have hrest : dGet rest p.1 = none :=
        dGet_none_of_not_mem rest p.1 nd.1
      simp [dGet, hrest, attrsGet, attrsSet, dGet_dSet_self]
    · simp [dGet, hp, attrsGet, attrsSet, dGet_dSet_ne _ _ _ _ (Ne.symm hp)]

theorem jsonDump_keys_nodup (e : Element) :
    ((jsonDump e).map Prod.fst).Nodup := by
  have hmap : ∀ (l : List String),
      (List.map (fun s => (s, slotValue e s)) l).map Prod.fst = l := by
    intro l
    rw [List.map_map]
    exact List.map_id_fun.symm ▸ rfl
  cases hc : e.cls <;>
    simp [jsonDump, hc, hmap] <;> decide

theorem attrsMemPair_of_get (a : Attrs) (k : String) (v : AttrValue)
    (h : attrsGet a k = some v) : attrsMemPair a k v = true := by
  induction a with
  | nil => exact Option.noConfusion h
  | cons p rest ih =>
    by_cases hp : p.1 = k
    · simp only [attrsGet, dGet, hp, if_pos rfl] at h
      cases p
      simp_all [attrsMemPair]
    · simp only [attrsGet, dGet, if_neg hp] at h
      have hm := ih h
      by_cases hkv : p.1 = k ∧ p.2 = v
      · simp [attrsMemPair, hkv]
      · simp [attrsMemPair, hkv, hm]

/-- The merge condition of `update_metadata_from_model` on one dumped
field. -/
def umfmCond (attrs : Attrs) (p : String × AttrValue) : Bool :=
  !(attrsMemPair attrs p.1 p.2) && p.1 != "id" &&
    p.2 != AttrValue.null && p.2 != AttrValue.list []

theorem umfm_get (attrs : Attrs) (e : Element) (k : String) :
    attrsGet (updateMetadataFromModel attrs e) k =
      match dGet ((jsonDump e).filter (umfmCond attrs)) k with
      | some v => some v
      | none => attrsGet attrs k := by
  unfold updateMetadataFromModel umfmCond
  apply attrsGet_foldl_set
  exact ((List.filter_sublist _).map Prod.fst).nodup (jsonDump_keys_nodup e)

/-- C7: `update_element`'s merge never writes a dumped field whose value is
null (`None`) or the empty list (conjuncts 1–2); a field whose dumped value
equals the stored value keeps that stored value (conjunct 3); and a stored
field is never cleared — after the merge it still holds either its old
value or a non-null, non-empty value coming from the new record
(conjunct 4). -/
theorem c7_update_merge_no_clear :
    (∀ (attrs : Attrs) (e : Element) (f : String),
      dGet (jsonDump e) f = some AttrValue.null →
      attrsGet (updateMetadataFromModel attrs e) f = attrsGet attrs f) ∧
    (∀ (attrs : Attrs) (e : Element) (f : String),
      dGet (jsonDump e) f = some (AttrValue.list []) →
      attrsGet (updateMetadataFromModel attrs e) f = attrsGet attrs f) ∧
    (∀ (attrs : Attrs) (e : Element) (f : String) (v : AttrValue),
      attrsGet attrs f = some v → dGet (jsonDump e) f = some v →
      attrsGet (updateMetadataFromModel attrs e) f = some v) ∧
    (∀ (attrs : Attrs) (e : Element) (f : String) (v : AttrValue),
      attrsGet attrs f = some v →
      ∃ w, attrsGet (updateMetadataFromModel attrs e) f = some w ∧
        (w = v ∨ (w ≠ AttrValue.null ∧ w ≠ AttrValue.list [] ∧
          dGet (jsonDump e) f = some w))) := by
  have hfilter := fun (attrs : Attrs) (e : Element) (f : String) =>
    dGet_filter (jsonDump e) (umfmCond attrs) f (jsonDump_keys_nodup e)
  refine ⟨?_, ?_, ?_, ?_⟩
  · intro attrs e f h
    rw [umfm_get, hfilter, h]
    simp [umfmCond]
  · intro attrs e f h
    rw [umfm_get, hfilter, h]
    simp [umfmCond]
  · intro attrs e f v hv hd
    rw [umfm_get, hfilter, hd]
    simp [umfmCond, attrsMemPair_of_get attrs f v hv, hv]
  · intro attrs e f v hv
    rw [umfm_get, hfilter]
    cases hd : dGet (jsonDump e) f with
    | none => exact ⟨v, by simp [hv], Or.inl rfl⟩
    | some w =>
      by_cases hc : umfmCond attrs (f, w)
      · refine ⟨w, by simp [hc], Or.inr ⟨?_, ?_, rfl⟩⟩
        · intro hw
          subst hw
          simp [umfmCond] at hc
        · intro hw
          subst hw
          simp [umfmCond] at hc
      · exact ⟨v, by simp [hc, hv], Or.inl rfl⟩

/-- Witness for C7: a concrete merge where a null field, an empty-list
field and an equal field are all skipped, and a stored field survives. -/
theorem c7_update_merge_no_clear_witness :
    attrsGet (updateMetadataFromModel
      [("@type", AttrValue.str "Sample"), ("name", AttrValue.str "n1")]
      { cls := ElemClass.sample, id := "s1" }) "name" =
      some (AttrValue.str "n1") :=
  c7_update_merge_no_clear.1
    [("@type", AttrValue.str "Sample"), ("name", AttrValue.str "n1")]
    { cls := ElemClass.sample, id := "s1" } "name" (by decide)

/-! ### Consolidation discipline (C6) -/

theorem bind_eq_ok {α β : Type} {m : Except Err α} {f : α → Except Err β}
    {r : β} (h : (m >>= f) = .ok r) : ∃ x, m = .ok x ∧ f x = .ok r := by
  cases m with
  | ok x => exact ⟨x, rfl, h⟩
  | error e => exact Except.noConfusion h

theorem consolidate_fresh (x : Archive) :
    (consolidateMetadata x).snapshot =
      some (liveMetadata (consolidateMetadata x)) := rfl

theorem addAnyElement_ok_snapshot (today : String) (a : Archive) (e : Element)
    (source : Option String) (ext : FileMap) (partOf : Option String)
    (userOnly : Bool) (r : Archive)
    (h : addAnyElement today a e source ext partOf userOnly = .ok r) :
    r.snapshot = some (liveMetadata r) := by
  unfold addAnyElement at h
  simp only [] at h
  repeat' split at h
  all_goals first
    | exact Except.noConfusion h
    | (obtain rfl := Except.ok.inj h; exact consolidate_fresh _)

theorem updateElement_ok_snapshot (today : String) (a : Archive)
    (elementId : String) (new : Element) (source : Option String)
    (ext : FileMap) (partOf : Option String) (r : Archive)
    (h : updateElement today a elementId new source ext partOf = .ok r) :
    r.snapshot = some (liveMetadata r) := by
  unfold updateElement at h
  simp only [] at h
  repeat' split at h
  all_goals first
    | exact Except.noConfusion h
    | (obtain rfl := Except.ok.inj h; exact consolidate_fresh _)

theorem removeElement_ok_snapshot (today : String) (a : Archive)
    (elementId : String) (r : Archive)
    (h : removeElement today a elementId = .ok r) :
    r.snapshot = some (liveMetadata r) := by
  unfold removeElement at h
  simp only [] at h
  repeat' split at h
  all_goals first
    | exact Except.noConfusion h
    | (obtain rfl := Except.ok.inj h; exact consolidate_fresh _)

theorem foldlM_snapshot {γ : Type} (f : Archive → γ → Except Err Archive)
    (hf : ∀ acc m r2, f acc m = .ok r2 → r2.snapshot = acc.snapshot) :
    ∀ (l : List γ) (a a1 : Archive), l.foldlM f a = .ok a1 →
      a1.snapshot = a.snapshot := by
  intro l
  induction l with
  | nil =>
    intro a a1 h
    obtain rfl := Except.ok.inj h
    rfl
  | cons m ms ih =>
    intro a a1 h
    rw [List.foldlM_cons] at h
    obtain ⟨x, hx, h⟩ := bind_eq_ok h
    rw [ih x a1 h]
    exact hf a m x hx

theorem encryptStep_snapshot (delete : Bool) (acc : Archive)
    (pg : String × Attrs) (r2 : Archive)
    (h : encryptStep delete acc pg = .ok r2) : r2.snapshot = acc.snapshot := by
  unfold encryptStep at h
  repeat' split at h
  all_goals first
    | exact Except.noConfusion h
    | (obtain rfl := Except.ok.inj h; rfl)

theorem decryptStep_snapshot (acc : Archive) (pg : String × Attrs)
    (r2 : Archive) (h : decryptStep acc pg = .ok r2) :
    r2.snapshot = acc.snapshot := by
  unfold decryptStep at h
  repeat' split at h
  all_goals first
    | exact Except.noConfusion h
    | (obtain rfl := Except.ok.inj h; rfl)

theorem modoEncrypt_snapshot (today : String) (a : Archive) (delete : Bool)
    (r : Archive) (h : modoEncrypt today a delete = .ok r) :
    r.snapshot = a.snapshot := by
  unfold modoEncrypt at h
  simp only [] at h
  split at h
  · cases hf : (a.elements.filter
        (fun p => strStartsWith p.1 "data/")).foldlM (encryptStep delete) a with
    | error e => rw [hf] at h; exact Except.noConfusion h
    | ok a1 =>
      rw [hf] at h
      obtain rfl := Except.ok.inj h
      exact foldlM_snapshot _ (encryptStep_snapshot delete) _ a a1 hf
  · exact Except.noConfusion h

theorem modoDecrypt_snapshot (today : String) (a : Archive) (r : Archive)
    (h : modoDecrypt today a = .ok r) : r.snapshot = a.snapshot := by
  unfold modoDecrypt at h
  simp only [] at h
  split at h
  · cases hf : (a.elements.filter
        (fun p => strStartsWith p.1 "data/")).foldlM decryptStep a with
    | error e => rw [hf] at h; exact Except.noConfusion h
    | ok a1 =>
      rw [hf] at h
      obtain rfl := Except.ok.inj h
      exact foldlM_snapshot _ decryptStep_snapshot _ a a1 hf
  · exact Except.noConfusion h

/-- Counterexample for C6 as stated: `encrypt` on the concrete archive
`exM` succeeds (its timestamp write mutates the root attributes) but the
consolidated snapshot read afterwards does not reflect that write — no
consolidation step ran. -/
theorem c6_consolidation_counterexample :
    (modoEncrypt "2025-01-01" exM true).map
      (fun r => decide (r.snapshot = some (liveMetadata r))) =
      .ok false := by decide

/-- C6 (amended): `add_element`, `update_element` and `remove_element` end
with a consolidation step, so on success the snapshot equals the live
metadata view; `encrypt` and `decrypt` end with only the timestamp write
and never consolidate — on success they leave the snapshot exactly as it
was before the call. -/
theorem c6_consolidation :
    (∀ (today : String) (a : Archive) (e : Element) (source : Option String)
      (ext : FileMap) (partOf : Option String) (r : Archive),
      addElement today a e source ext partOf = .ok r →
      r.snapshot = some (liveMetadata r)) ∧
    (∀ (today : String) (a : Archive) (elementId : String) (new : Element)
      (source : Option String) (ext : FileMap) (partOf : Option String)
      (r : Archive),
      updateElement today a elementId new source ext partOf = .ok r →
      r.snapshot = some (liveMetadata r)) ∧
    (∀ (today : String) (a : Archive) (elementId : String) (r : Archive),
      removeElement today a elementId = .ok r →
      r.snapshot = some (liveMetadata r)) ∧
    (∀ (today : String) (a : Archive) (delete : Bool) (r : Archive),
      modoEncrypt today a delete = .ok r → r.snapshot = a.snapshot) ∧
    (∀ (today : String) (a : Archive) (r : Archive),
      modoDecrypt today a = .ok r → r.snapshot = a.snapshot) :=
  ⟨fun today a e source ext partOf r h =>
      addAnyElement_ok_snapshot today a e source ext partOf true r h,
    fun today a elementId new source ext partOf r h =>
      updateElement_ok_snapshot today a elementId new source ext partOf r h,
    fun today a elementId r h =>
      removeElement_ok_snapshot today a elementId r h,
    fun today a delete r h => modoEncrypt_snapshot today a delete r h,
    fun today a r h => modoDecrypt_snapshot today a r h⟩

/-- Witness for C6: the concrete successful `add_element` run building
`exA1` ends consolidated, and the concrete `encrypt` run on `exM` keeps the
prior snapshot. -/
theorem c6_consolidation_witness :
    exA1.snapshot = some (liveMetadata exA1) ∧
    (∀ r, modoEncrypt "2025-01-01" exM true = .ok r →
      r.snapshot = exM.snapshot) :=
  ⟨c6_consolidation.1 "d1" exM exAssay none [] none exA1 (by decide),
    fun r h => c6_consolidation.2.2.2.1 "2025-01-01" exM true r h⟩

/-! ### update_file case analysis (C2) -/

/-- C2: `update_file` resolves the four cases of {path changed, checksum
changed} into exactly one action. Conjunct 1: neither changed (no source,
or a source with the stored digest) — no file operation, storage and
record returned untouched. Conjunct 2: content only — the file is
overwritten in place through `add_file` and the checksum updated.
Conjunct 3: path only — the file is relocated, the checksum not
recomputed. Conjunct 4: both — the new file is added and then the old one
removed. Conjunct 5 is the concrete scenario: `data_path` `a.bam` updated
to `b.bam` with a different source file (digest `d2`, index present):
`b.bam` and its index exist, `a.bam` and its index are gone, and the
stored checksum equals the new source digest. -/
theorem c2_update_file_cases :
    (∀ (ext st : FileMap) (m : Element) (old : String),
      m.data_path = some old →
      deUpdateFile ext st m old none = .ok (st, m)) ∧
    (∀ (ext st : FileMap) (m : Element) (old src d : String),
      m.data_path = some old → dGet ext src = some d →
      m.data_checksum = some d →
      deUpdateFile ext st m old (some src) = .ok (st, m)) ∧
    (∀ (ext st : FileMap) (m : Element) (old src d : String),
      m.data_path = some old → dGet ext src = some d →
      m.data_checksum ≠ some d → getIndex ext src = none →
      deUpdateFile ext st m old (some src) =
        .ok (fmPut st old d,
          { m with data_checksum := some d, data_path := some old })) ∧
    (∀ (ext st : FileMap) (m : Element) (old new c : String),
      m.data_path = some old → new ≠ old → dGet st old = some c →
      indexPath old = none →
      deUpdateFile ext st m new none =
        .ok (fmPut (fmRemove st old) new c, m)) ∧
    (∀ (ext st : FileMap) (m : Element) (old new src d : String),
      m.data_path = some old → dGet ext src = some d →
      m.data_checksum ≠ some d → new ≠ old → getIndex ext src = none →
      indexPath old = none →
      deUpdateFile ext st m new (some src) =
        .ok (fmRemove (fmPut st new d) old,
          { m with data_checksum := some d, data_path := some new })) ∧
    deUpdateFile [("src2.bam", "d2"), ("src2.bam.bai", "di2")]
      [("a.bam", "d1"), ("a.bam.bai", "di1")]
      { cls := .dataEntity, id := "x", data_path := some "a.bam",
        data_format := some "BAM", data_checksum := some "d1" }
      "b.bam" (some "src2.bam") =
      .ok ([("b.bam", "d2"), ("b.bam.bai", "di2")],
        { cls := .dataEntity, id := "x", data_path := some "b.bam",
          data_format := some "BAM", data_checksum := some "d2" }) := by
  refine ⟨?_, ?_, ?_, ?_, ?_, by decide⟩
  · intro ext st m old hdp
    simp [deUpdateFile, hdp]
  · intro ext st m old src d hdp hsrc hck
    simp [deUpdateFile, hdp, deUpdateChecksum, hsrc, hck]
  · intro ext st m old src d hdp hsrc hck hidx
    have hb : (m.data_checksum != some d) = true := bne_iff_ne.mpr hck
    simp [deUpdateFile, hdp, deUpdateChecksum, hsrc, Ne.symm hck, deAddFile,
      hidx, hb]
  · intro ext st m old new c hdp hne hold hip
    simp [deUpdateFile, hdp, hne, deMoveFile, fmMove, hold, getIndex, hip]
  · intro ext st m old new src d hdp hsrc hck hne hidx hip
    have hb : (m.data_checksum != some d) = true := bne_iff_ne.mpr hck
    have hb2 : (new != old) = true := bne_iff_ne.mpr hne
    simp [deUpdateFile, hdp, deUpdateChecksum, hsrc, Ne.symm hck, deAddFile,
      hidx, hb, hb2, deRemoveFile, hip]

/-- Witness for C2: the add-then-remove case at concrete inputs without
index companions. -/
theorem c2_update_file_cases_witness :
    deUpdateFile [("s2", "d2")] [("a.txt", "d1")]
      { cls := ElemClass.dataEntity, id := "x", data_path := some "a.txt",
        data_checksum := some "d1" } "b.txt" (some "s2") =
      .ok (fmRemove (fmPut [("a.txt", "d1")] "b.txt" "d2") "a.txt",
        { cls := ElemClass.dataEntity, id := "x", data_path := some "b.txt",
          data_checksum := some "d2" }) := by
  have h := c2_update_file_cases.2.2.2.2.1 [("s2", "d2")] [("a.txt", "d1")]
    { cls := ElemClass.dataEntity, id := "x", data_path := some "a.txt",
      data_checksum := some "d1" } "a.txt" "b.txt" "s2" "d2"
    (by decide) (by decide) (by decide) (by decide) (by decide) (by decide)
  exact h

/-! ### Cascade removal (C1, C3) -/

/-- One attribute value references `t`: it is the scalar `t` or a list
containing `t`. -/
def pairRefs (t : String) (p : String × AttrValue) : Bool :=
  if p.2 = AttrValue.str t then true
  else
    match p.2 with
    | .list l => decide (t ∈ l)
    | _ => false

/-- No attribute of the row references `t`. -/
def rowNoRef (t : String) (row : Attrs) : Prop :=
  ∀ p ∈ row, pairRefs t p = false

instance (t : String) (row : Attrs) : Decidable (rowNoRef t row) :=
  List.decidableBAll _ row

/-- Apply one scan step of the link-cleanup loop to a group's attributes:
a scalar reference is deleted, a list containing the target is overwritten
with null (the result of `list.remove`). -/
def scrubStep (t : String) (g : Attrs) (p : String × AttrValue) : Attrs :=
  if p.2 = AttrValue.str t then attrsErase g p.1
  else
    match p.2 with
    | .list l => if t ∈ l then attrsSet g p.1 AttrValue.null else g
    | _ => g

/-- Apply the scan over the snapshot row `row` to the live attributes
`g`. -/
def scrubRow (t : String) (row g : Attrs) : Attrs :=
  row.foldl (scrubStep t) g

/-- The net effect of the link-cleanup loop on one group whose snapshot
row equals its live attributes. -/
def scrubSelf (t : String) (g : Attrs) : Attrs :=
  scrubRow t g g

theorem dErase_sublist {β : Type} (a : List (String × β)) (k : String) :
    List.Sublist (dErase a k) a := by
  induction a with
  | nil => exact List.Sublist.refl _
  | cons p rest ih =>
    by_cases hp : p.1 = k
    · simp only [dErase, hp, if_pos rfl]
      exact List.sublist_cons_self p rest
    · simp only [dErase, if_neg hp]
      exact List.Sublist.cons₂ p ih

theorem dSet_keys_of_present {β : Type} (a : List (String × β)) (k : String)
    (v w : β) (h : dGet a k = some w) :
    (dSet a k v).map Prod.fst = a.map Prod.fst := by
  induction a with
  | nil => exact Option.noConfusion h
  | cons p rest ih =>
    by_cases hp : p.1 = k
    · simp [dSet, hp]
    · simp only [dGet, if_neg hp] at h
      simp [dSet, hp, ih h]

theorem removeLinksRow_noref (t k : String) (es : List (String × Attrs))
    (row : Attrs) (h : rowNoRef t row) :
    removeLinksRow t k es row = .ok es := by
  induction row generalizing es with
  | nil => rfl
  | cons p rest ih =>
    obtain ⟨pk, pv⟩ := p
    have hp := h (pk, pv) (by simp)
    have hrest : rowNoRef t rest := fun q hq => h q (by simp [hq])
    cases pv with
    | str s =>
      have hst : s ≠ t := by
        intro hh
        simp [pairRefs, hh] at hp
      have hne : AttrValue.str s ≠ AttrValue.str t := by simp [hst]
      simp only [removeLinksRow, if_neg hne]
      exact ih _ hrest
    | list l =>
      have hnl : t ∉ l := by
        intro hh
        simp [pairRefs, hh] at hp
      have hne : AttrValue.list l ≠ AttrValue.str t := by simp
      simp only [removeLinksRow, if_neg hne, if_neg hnl]
      exact ih _ hrest
    | null =>
      have hne : AttrValue.null ≠ AttrValue.str t := by simp
      simp only [removeLinksRow, if_neg hne]
      exact ih _ hrest

theorem removeLinksRow_present (t k : String) (es : List (String × Attrs))
    (row : Attrs) (g : Attrs) (hg : dGet es k = some g) :
    removeLinksRow t k es row = .ok (dSet es k (scrubRow t row g)) := by
  induction row generalizing es g with
  | nil =>
    unfold removeLinksRow scrubRow
    rw [List.foldl_nil, dSet_dGet_self _ _ _ hg]
  | cons p rest ih =>
    obtain ⟨pk, pv⟩ := p
    have hstep : scrubRow t ((pk, pv) :: rest) g =
        scrubRow t rest (scrubStep t g (pk, pv)) := rfl
    cases pv with
    | str s =>
      by_cases hst : s = t
      · subst hst
        simp only [removeLinksRow, if_pos rfl, hg]
        rw [ih _ _ (dGet_dSet_self es k (attrsErase g pk)), dSet_dSet_self,
          hstep]
        have hs : scrubStep s g (pk, AttrValue.str s) = attrsErase g pk := by
          simp [scrubStep]
        rw [hs]
        simp
      · have hne : AttrValue.str s ≠ AttrValue.str t := by simp [hst]
        simp only [removeLinksRow, if_neg hne]
        rw [ih _ _ hg, hstep]
        have hs : scrubStep t g (pk, AttrValue.str s) = g := by
          simp [scrubStep, hne]
        rw [hs]
    | list l =>
      have hne : AttrValue.list l ≠ AttrValue.str t := by simp
      by_cases hin : t ∈ l
      · simp only [removeLinksRow, if_neg hne, if_pos hin, hg]
        rw [ih _ _ (dGet_dSet_self es k (attrsSet g pk AttrValue.null)),
          dSet_dSet_self, hstep]
        have hs : scrubStep t g (pk, AttrValue.list l) =
            attrsSet g pk AttrValue.null := by
          simp [scrubStep, hne, hin]
        rw [hs]
      · simp only [removeLinksRow, if_neg hne, if_neg hin]
        rw [ih _ _ hg, hstep]
        have hs : scrubStep t g (pk, AttrValue.list l) = g := by
          simp [scrubStep, hne, hin]
        rw [hs]
    | null =>
      have hne : AttrValue.null ≠ AttrValue.str t := by simp
      simp only [removeLinksRow, if_neg hne]
      rw [ih _ _ hg, hstep]
      have hs : scrubStep t g (pk, AttrValue.null) = g := by
        simp [scrubStep, hne]
      rw [hs]

theorem scrubRow_noref (t : String) (row g : Attrs) (h : rowNoRef t row) :
    scrubRow t row g = g := by
  induction row generalizing g with
  | nil => rfl
  | cons p rest ih =>
    obtain ⟨pk, pv⟩ := p
    have hp := h (pk, pv) (by simp)
    have hrest : rowNoRef t rest := fun q hq => h q (by simp [hq])
    have hstep : scrubStep t g (pk, pv) = g := by
      cases pv with
      | str s =>
        have hst : s ≠ t := by
          intro hh
          simp [pairRefs, hh] at hp
        simp [scrubStep, hst]
      | list l =>
        have hnl : t ∉ l := by
          intro hh
          simp [pairRefs, hh] at hp
        simp [scrubStep, hnl]
      | null => simp [scrubStep]
    calc scrubRow t ((pk, pv) :: rest) g
        = scrubRow t rest (scrubStep t g (pk, pv)) := rfl
      _ = scrubRow t rest g := by rw [hstep]
      _ = g := ih g hrest

/-- The pointwise behaviour of the link-cleanup loop over rows whose
referencing entries are present in the live store with the same
attributes (the consolidated-snapshot situation). -/
theorem removeLinks_spec (t : String) (rows : List (String × Attrs)) :
    ∀ (es : List (String × Attrs)),
      (∀ r ∈ rows, rowNoRef t r.2 ∨ dGet es r.1 = some r.2) →
      (rows.map Prod.fst).Nodup →
      ∃ es2, removeLinks t es rows = .ok es2 ∧
        (∀ r ∈ rows, ¬ rowNoRef t r.2 →
          dGet es2 r.1 = some (scrubSelf t r.2)) ∧
        (∀ k, (∀ r ∈ rows, r.1 ≠ k ∨ rowNoRef t r.2) →
          dGet es2 k = dGet es k) := by
  induction rows with
  | nil =>
    intro es _ _
    exact ⟨es, rfl, by simp, fun k _ => rfl⟩
  | cons row rest ih =>
    intro es h1 h2
    simp only [List.map_cons, List.nodup_cons] at h2
    by_cases hnr : rowNoRef t row.2
    · have hrow : removeLinksRow t row.1 es row.2 = .ok es :=
        removeLinksRow_noref t row.1 es row.2 hnr
      have h1r : ∀ r ∈ rest, rowNoRef t r.2 ∨ dGet es r.1 = some r.2 :=
        fun r hr => h1 r (by simp [hr])
      obtain ⟨es2, heq, ha, hb⟩ := ih es h1r h2.2
      refine ⟨es2, ?_, ?_, ?_⟩
      · simp only [removeLinks, hrow]
        exact heq
      · intro r hr hnr2
        rcases List.mem_cons.mp hr with rfl | hr2
        · exact absurd hnr hnr2
        · exact ha r hr2 hnr2
      · intro k hk
        exact hb k (fun r hr => hk r (by simp [hr]))
    · have hg : dGet es row.1 = some row.2 := by
        rcases h1 row (by simp) with h | h
        · exact absurd h hnr
        · exact h
      have hrow : removeLinksRow t row.1 es row.2 =
          .ok (dSet es row.1 (scrubSelf t row.2)) :=
        removeLinksRow_present t row.1 es row.2 row.2 hg
      have hput : ∀ (r : String × Attrs), r ∈ rest → r.1 ≠ row.1 := by
        intro r hr he
        exact h2.1 (he ▸ (List.mem_map.mpr ⟨r, hr, rfl⟩))
      have h1r : ∀ r ∈ rest, rowNoRef t r.2 ∨
          dGet (dSet es row.1 (scrubSelf t row.2)) r.1 = some r.2 := by
        intro r hr
        rcases h1 r (by simp [hr]) with h | h
        · exact Or.inl h
        · exact Or.inr (by
            rw [dGet_dSet_ne _ _ _ _ (hput r hr)]
            exact h)
      obtain ⟨es2, heq, ha, hb⟩ :=
        ih (dSet es row.1 (scrubSelf t row.2)) h1r h2.2
      refine ⟨es2, ?_, ?_, ?_⟩
      · simp only [removeLinks, hrow]
        exact heq
      · intro r hr hnr2
        rcases List.mem_cons.mp hr with rfl | hr2
        · rw [hb r.1 (fun q hq => Or.inl (hput q hq))]
          exact dGet_dSet_self es r.1 (scrubSelf t r.2)
        · exact ha r hr2 hnr2
      · intro k hk
        have hrk : row.1 ≠ k := by
          rcases hk row (by simp) with h | h
          · exact h
          · exact absurd h hnr
        rw [hb k (fun r hr => hk r (by simp [hr]))]
        exact dGet_dSet_ne _ _ _ _ (Ne.symm hrk)

/-- Full behaviour of `remove_element` on a consolidated archive: the call
succeeds, the primary data file (and only it) is removed, the element's
group is gone, and every other element's attributes are scrubbed — scalar
references to the removed id deleted, list attributes containing it set to
null, everything else untouched. -/
theorem removeElement_spec (today : String) (a : Archive) (B : String)
    (battrs : Attrs)
    (hsnap : a.snapshot = some (liveMetadata a))
    (hnd : (a.elements.map Prod.fst).Nodup)
    (hB : dGet a.elements B = some battrs)
    (hBnr : rowNoRef B battrs)
    (hRnr : rowNoRef B a.rootAttrs)
    (hdp : attrsGet battrs "data_path" = none ∨
      ∃ s, attrsGet battrs "data_path" = some (.str s)) :
    ∃ r, removeElement today a B = .ok r ∧
      r.files = (match attrsGet battrs "data_path" with
        | some (.str p) => fmRemove a.files p
        | _ => a.files) ∧
      dGet r.elements B = none ∧
      (∀ k g, (k, g) ∈ a.elements → k ≠ B →
        dGet r.elements k = some (scrubSelf B g)) := by
  have hmem : ∀ (r : String × Attrs), r ∈ a.elements → r.1 = B →
      r.2 = battrs := by
    intro r hr he
    have := dGet_eq_of_mem_nodup a.elements r.1 r.2 hnd
      (by cases r; exact hr)
    rw [he, hB] at this
    exact (Option.some.inj this).symm
  have h1 : ∀ r ∈ a.elements, rowNoRef B r.2 ∨
      dGet (dErase a.elements B) r.1 = some r.2 := by
    intro r hr
    by_cases he : r.1 = B
    · exact Or.inl (hmem r hr he ▸ hBnr)
    · refine Or.inr ?_
      rw [dGet_dErase_ne _ _ _ he]
      exact dGet_eq_of_mem_nodup a.elements r.1 r.2 hnd (by cases r; exact hr)
  obtain ⟨es2, heq, ha, hb⟩ :=
    removeLinks_spec B a.elements (dErase a.elements B) h1 hnd
  have hview : metadataView a = (rootId a, a.rootAttrs) :: a.elements := by
    rw [metadataView, hsnap]
    rfl
  have hloop : removeLinks B (dErase a.elements B) (metadataView a) =
      .ok es2 := by
    rw [hview]
    simp only [removeLinks,
      removeLinksRow_noref B (rootId a) (dErase a.elements B) a.rootAttrs hRnr]
    exact heq
  have hesB : dGet es2 B = none := by
    rw [hb B ?_]
    · exact dGet_dErase_self_nodup a.elements B hnd
    · intro r hr
      by_cases he : r.1 = B
      · exact Or.inr (hmem r hr he ▸ hBnr)
      · exact Or.inl he
  have hesK : ∀ k g, (k, g) ∈ a.elements → k ≠ B →
      dGet es2 k = some (scrubSelf B g) := by
    intro k g hkg hkB
    by_cases hnr : rowNoRef B g
    · have hcond : ∀ r ∈ a.elements, r.1 ≠ k ∨ rowNoRef B r.2 := by
        intro r hr
        by_cases he : r.1 = k
        · refine Or.inr ?_
          have h1r := dGet_eq_of_mem_nodup a.elements r.1 r.2 hnd
            (by cases r; exact hr)
          have h2r := dGet_eq_of_mem_nodup a.elements k g hnd hkg
          rw [he, h2r] at h1r
          exact Option.some.inj h1r ▸ hnr
        · exact Or.inl he
      rw [hb k hcond, dGet_dErase_ne _ _ _ hkB,
        dGet_eq_of_mem_nodup a.elements k g hnd hkg,
        scrubSelf, scrubRow_noref B g g hnr]
    · exact ha (k, g) hkg hnr
  rcases hdp with hnone | ⟨s, hs⟩
  · have hkey : attrsHasKey battrs "data_path" = false := by
      unfold attrsHasKey dHasKey
      rw [show dGet battrs "data_path" = attrsGet battrs "data_path" from rfl,
        hnone]
      rfl
    refine ⟨consolidateMetadata (updateDate { a with elements := es2 } today),
      ?_, ?_, hesB, hesK⟩
    · simp only [removeElement, hB, hkey, Bool.false_eq_true, if_false, hloop]
    · simp only [hnone]
      rfl
  · have hkey : attrsHasKey battrs "data_path" = true := by
      unfold attrsHasKey dHasKey
      rw [show dGet battrs "data_path" = attrsGet battrs "data_path" from rfl,
        hs]
      rfl
    refine ⟨consolidateMetadata (updateDate
      { a with files := fmRemove a.files s, elements := es2 } today),
      ?_, ?_, hesB, hesK⟩
    · simp only [removeElement, hB, hkey, if_true, hs, hloop]
    · simp only [hs]
      rfl

theorem scrubRow_get (t : String) (row : Attrs) :
    ∀ (g : Attrs) (key : String),
      (row.map Prod.fst).Nodup → (g.map Prod.fst).Nodup →
      (∀ p ∈ row, dGet g p.1 = some p.2) →
      attrsGet (scrubRow t row g) key =
        match dGet row key with
        | some (.str s) => if s = t then none else attrsGet g key
        | some (.list l) =>
          if t ∈ l then some AttrValue.null else attrsGet g key
        | some .null => attrsGet g key
        | none => attrsGet g key := by
  induction row with
  | nil =>
    intro g key _ _ _
    rfl
  | cons p rest ih =>
    intro g key hrnd hgnd hvals
    obtain ⟨pk, pv⟩ := p
    simp only [List.map_cons, List.nodup_cons] at hrnd
    have hpk : dGet g pk = some pv := hvals (pk, pv) (by simp)
    have hvrest : ∀ q ∈ rest, dGet g q.1 = some q.2 :=
      fun q hq => hvals q (by simp [hq])
    have hqne : ∀ (q : String × AttrValue), q ∈ rest → q.1 ≠ pk := by
      intro q hq he
      exact hrnd.1 (he ▸ (List.mem_map.mpr ⟨q, hq, rfl⟩))
    have hstep : scrubRow t ((pk, pv) :: rest) g =
        scrubRow t rest (scrubStep t g (pk, pv)) := rfl
    rw [hstep]
    -- facts about the one-step result, by cases on the value
    cases pv with
    | str s =>
      by_cases hst : s = t
      · have hs1 : scrubStep t g (pk, AttrValue.str s) = attrsErase g pk := by
          simp [scrubStep, hst]
        have hnd1 : ((attrsErase g pk).map Prod.fst).Nodup :=
          ((dErase_sublist g pk).map Prod.fst).nodup hgnd
        have hv1 : ∀ q ∈ rest, dGet (attrsErase g pk) q.1 = some q.2 := by
          intro q hq
          rw [show attrsErase g pk = dErase g pk from rfl,
            dGet_dErase_ne _ _ _ (hqne q hq)]
          exact hvrest q hq
        rw [hs1, ih _ key hrnd.2 hnd1 hv1]
        by_cases hkey : pk = key
        · subst hkey
          have hre : dGet rest pk = none :=
            dGet_none_of_not_mem rest pk hrnd.1
          rw [hre]
          rw [show attrsGet (attrsErase g pk) pk =
            dGet (dErase g pk) pk from rfl] at *
          simp [dGet, hst, dGet_dErase_self_nodup g pk hgnd]
        · have hge : attrsGet (attrsErase g pk) key = attrsGet g key := by
            rw [show attrsErase g pk = dErase g pk from rfl]
            exact dGet_dErase_ne _ _ _ (Ne.symm hkey)
          rw [hge, show dGet ((pk, AttrValue.str s) :: rest) key =
            dGet rest key from by simp [dGet, hkey]]
      · have hs1 : scrubStep t g (pk, AttrValue.str s) = g := by
          simp [scrubStep, hst]
        rw [hs1, ih _ key hrnd.2 hgnd hvrest]
        by_cases hkey : pk = key
        · subst hkey
          have hre : dGet rest pk = none :=
            dGet_none_of_not_mem rest pk hrnd.1
          rw [hre]
          simp [dGet, hst]
        · rw [show dGet ((pk, AttrValue.str s) :: rest) key =
            dGet rest key from by simp [dGet, hkey]]
    | list l =>
      have hlne : AttrValue.list l ≠ AttrValue.str t := by simp
      by_cases hin : t ∈ l
      · have hs1 : scrubStep t g (pk, AttrValue.list l) =
            attrsSet g pk AttrValue.null := by
          simp [scrubStep, hin]
        have hnd1 : ((attrsSet g pk AttrValue.null).map Prod.fst).Nodup := by
          rw [show attrsSet g pk AttrValue.null =
            dSet g pk AttrValue.null from rfl,
            dSet_keys_of_present g pk AttrValue.null (AttrValue.list l) hpk]
          exact hgnd
        have hv1 : ∀ q ∈ rest,
            dGet (attrsSet g pk AttrValue.null) q.1 = some q.2 := by
          intro q hq
          rw [show attrsSet g pk AttrValue.null =
            dSet g pk AttrValue.null from rfl,
            dGet_dSet_ne _ _ _ _ (hqne q hq)]
          exact hvrest q hq
        rw [hs1, ih _ key hrnd.2 hnd1 hv1]
        by_cases hkey : pk = key
        · subst hkey
          have hre : dGet rest pk = none :=
            dGet_none_of_not_mem rest pk hrnd.1
          rw [hre]
          have hset : attrsGet (attrsSet g pk AttrValue.null) pk =
              some AttrValue.null := dGet_dSet_self g pk AttrValue.null
          simp [dGet, hin, hset]
        · have hge : attrsGet (attrsSet g pk AttrValue.null) key =
              attrsGet g key := by
            rw [show attrsSet g pk AttrValue.null =
              dSet g pk AttrValue.null from rfl]
            exact dGet_dSet_ne _ _ _ _ (Ne.symm hkey)
          rw [hge, show dGet ((pk, AttrValue.list l) :: rest) key =
            dGet rest key from by simp [dGet, hkey]]
      · have hs1 : scrubStep t g (pk, AttrValue.list l) = g := by
          simp [scrubStep, hin]
        rw [hs1, ih _ key hrnd.2 hgnd hvrest]
        by_cases hkey : pk = key
        · subst hkey
          have hre : dGet rest pk = none :=
            dGet_none_of_not_mem rest pk hrnd.1
          rw [hre]
          simp [dGet, hin]
        · rw [show dGet ((pk, AttrValue.list l) :: rest) key =
            dGet rest key from by simp [dGet, hkey]]
    | null =>
      have hs1 : scrubStep t g (pk, AttrValue.null) = g := by
        simp [scrubStep]
      rw [hs1, ih _ key hrnd.2 hgnd hvrest]
      by_cases hkey : pk = key
      · subst hkey
        have hre : dGet rest pk = none :=
          dGet_none_of_not_mem rest pk hrnd.1
        rw [hre]
        simp [dGet]
      · rw [show dGet ((pk, AttrValue.null) :: rest) key =
          dGet rest key from by simp [dGet, hkey]]

/-- Pointwise description of the link-cleanup effect on one group with
distinct attribute keys. -/
theorem scrubSelf_get (t : String) (g : Attrs) (key : String)
    (nd : (g.map Prod.fst).Nodup) :
    attrsGet (scrubSelf t g) key =
      match attrsGet g key with
      | some (.str s) => if s = t then none else some (.str s)
      | some (.list l) =>
        if t ∈ l then some AttrValue.null else some (.list l)
      | some .null => some AttrValue.null
      | none => none := by
  have h := scrubRow_get t g g key nd nd
    (fun p hp => dGet_eq_of_mem_nodup g p.1 p.2 nd (by cases p; exact hp))
  rw [scrubSelf, h]
  cases hk : dGet g key with
  | none => rw [show attrsGet g key = dGet g key from rfl, hk]
  | some v =>
    rw [show attrsGet g key = dGet g key from rfl, hk]
    cases v with
    | str s =>
      by_cases hst : s = t <;>
        simp [hst, show attrsGet g key = dGet g key from rfl, hk]
    | list l =>
      by_cases hin : t ∈ l <;>
        simp [hin, show attrsGet g key = dGet g key from rfl, hk]
    | null => simp [show attrsGet g key = dGet g key from rfl, hk]

/-- Counterexample for C1 as stated: in `exA3` the assay `assay/assay1`
has `has_sample = ["sample/sample1", "sample/sample2"]`; removing
`sample/sample1` sets the whole attribute to null (the return value of
`list.remove`), so the other entry `"sample/sample2"` is lost instead of
being kept. -/
theorem c1_remove_cascade_counterexample :
    attrsGet ((dGet exA3.elements "assay/assay1").getD []) "has_sample" =
      some (.list ["sample/sample1", "sample/sample2"]) ∧
    (removeElement "d4" exA3 "sample/sample1").map
      (fun r => (dGet r.elements "assay/assay1").map
        (fun g => attrsGet g "has_sample")) =
      .ok (some (some AttrValue.null)) ∧
    (some AttrValue.null : Option AttrValue) ≠
      some (AttrValue.list ["sample/sample2"]) := by decide

/-- C1 (amended): on a consolidated archive, `remove_element(B)` deletes
B's group and rewrites every other element's attributes as follows: an
attribute whose scalar value equals B's id is deleted; an attribute whose
list value contains B's id is overwritten with null — the other entries of
that list are discarded, not preserved; all other attributes (and all
other elements) are unchanged. -/
theorem c1_remove_cascade (today : String) (a : Archive) (B : String)
    (battrs : Attrs)
    (hsnap : a.snapshot = some (liveMetadata a))
    (hnd : (a.elements.map Prod.fst).Nodup)
    (hand : ∀ p ∈ a.elements, ((p.2 : Attrs).map Prod.fst).Nodup)
    (hB : dGet a.elements B = some battrs)
    (hBnr : rowNoRef B battrs)
    (hRnr : rowNoRef B a.rootAttrs)
    (hdp : attrsGet battrs "data_path" = none ∨
      ∃ s, attrsGet battrs "data_path" = some (.str s)) :
    ∃ r, removeElement today a B = .ok r ∧
      dGet r.elements B = none ∧
      (∀ k g, (k, g) ∈ a.elements → k ≠ B →
        ∃ g2, dGet r.elements k = some g2 ∧
          ∀ key, attrsGet g2 key =
            match attrsGet g key with
            | some (.str s) => if s = B then none else some (.str s)
            | some (.list l) =>
              if B ∈ l then some AttrValue.null else some (.list l)
            | some .null => some AttrValue.null
            | none => none) := by
  obtain ⟨r, hok, _hfiles, hgone, hscrub⟩ :=
    removeElement_spec today a B battrs hsnap hnd hB hBnr hRnr hdp
  refine ⟨r, hok, hgone, ?_⟩
  intro k g hkg hkB
  exact ⟨scrubSelf B g, hscrub k g hkg hkB,
    fun key => scrubSelf_get B g key (hand (k, g) hkg)⟩

/-- Witness for C1: removing `sample/sample1` from the concrete archive
`exA3` with all hypotheses checked by evaluation. -/
theorem c1_remove_cascade_witness :
    ∃ r, removeElement "d4" exA3 "sample/sample1" = .ok r ∧
      dGet r.elements "sample/sample1" = none ∧
      (∀ k g, (k, g) ∈ exA3.elements → k ≠ "sample/sample1" →
        ∃ g2, dGet r.elements k = some g2 ∧
          ∀ key, attrsGet g2 key =
            match attrsGet g key with
            | some (.str s) =>
              if s = "sample/sample1" then none else some (.str s)
            | some (.list l) =>
              if "sample/sample1" ∈ l then some AttrValue.null
              else some (.list l)
            | some .null => some AttrValue.null
            | none => none) :=
  c1_remove_cascade "d4" exA3 "sample/sample1"
    ((dGet exA3.elements "sample/sample1").getD []) (by decide) (by decide)
    (by decide) (by decide) (by decide) (by decide) (Or.inl (by decide))

/-- Counterexample for C3 as stated: `exAData`'s element `data/x` has
`data_path = "a.bam"` with companion index `a.bam.bai` in storage;
`remove_element` deletes `a.bam` but leaves the index file behind — it
calls `storage.remove` on the primary path only, never
`DataElement.remove_file`. -/
theorem c3_remove_file_counterexample :
    dGet exAData.files "a.bam.bai" = some "di" ∧
    (removeElement "d2" exAData "data/x").map
      (fun r => (dGet r.files "a.bam", dGet r.files "a.bam.bai")) =
      .ok (none, some "di") := by decide

/-- C3 (amended): for an element whose attribute group has a scalar
`data_path`, `remove_element` deletes exactly that physical file from the
storage backend — its companion index file is not removed — and the file
removal precedes the group deletion in the operation's order; for an
element without `data_path`, no file is touched. -/
theorem c3_remove_file_scope (today : String) (a : Archive) (B : String)
    (battrs : Attrs)
    (hsnap : a.snapshot = some (liveMetadata a))
    (hnd : (a.elements.map Prod.fst).Nodup)
    (hfnd : (a.files.map Prod.fst).Nodup)
    (hB : dGet a.elements B = some battrs)
    (hBnr : rowNoRef B battrs)
    (hRnr : rowNoRef B a.rootAttrs)
    (hdp : attrsGet battrs "data_path" = none ∨
      ∃ s, attrsGet battrs "data_path" = some (.str s)) :
    ∃ r, removeElement today a B = .ok r ∧
      dGet r.elements B = none ∧
      (∀ p, attrsGet battrs "data_path" = some (.str p) →
        dGet r.files p = none ∧
        ∀ q, q ≠ p → dGet r.files q = dGet a.files q) ∧
      (attrsGet battrs "data_path" = none → r.files = a.files) := by
  obtain ⟨r, hok, hfiles, hgone, _hscrub⟩ :=
    removeElement_spec today a B battrs hsnap hnd hB hBnr hRnr hdp
  refine ⟨r, hok, hgone, ?_, ?_⟩
  · intro p hp
    rw [hp] at hfiles
    constructor
    · rw [hfiles]
      exact dGet_dErase_self_nodup a.files p hfnd
    · intro q hq
      rw [hfiles]
      exact dGet_dErase_ne _ _ _ (fun hh => hq hh)
  · intro hp
    rw [hp] at hfiles
    exact hfiles

/-- Witness for C3: removing `data/x` from the concrete archive `exAData`
deletes `a.bam` and only `a.bam` from storage. -/
theorem c3_remove_file_scope_witness :
    ∃ r, removeElement "d2" exAData "data/x" = .ok r ∧
      dGet r.elements "data/x" = none ∧
      (∀ p, attrsGet ((dGet exAData.elements "data/x").getD [])
          "data_path" = some (.str p) →
        dGet r.files p = none ∧
        ∀ q, q ≠ p → dGet r.files q = dGet exAData.files q) ∧
      (attrsGet ((dGet exAData.elements "data/x").getD [])
          "data_path" = none → r.files = exAData.files) :=
  c3_remove_file_scope "d2" exAData "data/x"
    ((dGet exAData.elements "data/x").getD []) (by decide) (by decide)
    (by decide) (by decide) (by decide) (by decide)
    (Or.inr ⟨"a.bam", by decide⟩)

end Modos
